import Mathlib

/-!
Verification development for the dcgm-exporter metrics pipeline
(`pkg/dcgmexporter`: `pipeline.go`-style code and `types.go`).

The Go code is shallowly embedded: Go maps become association lists
iterated in list order (Go map iteration order is arbitrary, so theorems
quantify over the entry order), fallible calls return `Except`/`Option`,
and external collaborators (collectors, transforms, template rendering,
instrument handles) are parameters of the cycle environment, exactly as
the spec scopes them out.  float64 values appear twice: control- and
data-flow properties use an exact-rational idealization of the stored
numbers (`AccState`), while the numerical content of the accumulation is
settled against a binary64 value model (`F64`) with IEEE 754
round-to-nearest, ties-to-even addition.
-/

/-- Model of `strconv.ParseFloat(s, 64)` restricted to plain decimal
literals (optional sign, integer digits, optional fraction), with exact
rational semantics in place of binary rounding.  Returns `none` exactly
when the string is not such a literal, modelling the parse-error path. -/
def digitsToNat (cs : List Char) : Nat :=
  cs.foldl (fun n c => n * 10 + (c.toNat - 48)) 0

/-- All characters are decimal digits. -/
def allDigits (cs : List Char) : Bool :=
  cs.all (fun c => c.isDigit)

/-- Parse the unsigned part `intPart[.fracPart]` of a decimal literal.
The value is built with the core constructor `mkRat` so that it reduces
in the kernel. -/
def parseUnsigned (cs : List Char) : Option ℚ :=
  let intPart := cs.takeWhile (fun c => c != '.')
  let rest := cs.dropWhile (fun c => c != '.')
  match rest with
  | [] =>
      if intPart ≠ [] ∧ allDigits intPart then
        some (mkRat (digitsToNat intPart) 1)
      else none
  | _ :: fracPart =>
      if (intPart ≠ [] ∨ fracPart ≠ []) ∧ allDigits intPart ∧ allDigits fracPart
          ∧ fracPart.all (fun c => c != '.') then
        some (mkRat (digitsToNat intPart * 10 ^ fracPart.length + digitsToNat fracPart)
          (10 ^ fracPart.length))
      else none

/-- Model of `strconv.ParseFloat(value, 64)` on decimal literals:
handles an optional leading sign, then delegates to `parseUnsigned`. -/
def parseValue (s : String) : Option ℚ :=
  match s.data with
  | '-' :: rest => (parseUnsigned rest).map (fun q => Rat.neg q)
  | '+' :: rest => parseUnsigned rest
  | rest => parseUnsigned rest

/-- Model of `strconv.FormatFloat(x, 'f', -1, 64)` (full precision, no
fixed decimal count) under the exact-value idealization: an injective
rendering of the stored number.  Data-flow properties depend only on
which number is rendered, not on the digit string. -/
def formatValue (q : ℚ) : String :=
  toString q

/-- Source: `types.go`, `type Counter struct`. -/
structure Counter where
  FieldID   : Nat
  FieldName : String
  PromType  : String
  Help      : String
deriving DecidableEq, Repr

/-- Source: `types.go`, `type Metric struct`.  `Labels` and `Attributes`
are Go maps `map[string]string`; they are modelled as association lists
carrying one possible iteration order each. -/
structure Metric where
  Counter : Counter
  Value   : String
  GPU          : String
  GPUUUID      : String
  GPUDevice    : String
  GPUModelName : String
  GPUPCIBusID  : String
  UUID : String
  MigProfile    : String
  GPUInstanceID : String
  Hostname      : String
  Labels     : List (String × String)
  Attributes : List (String × String)
deriving DecidableEq, Repr

/-- Go map read `l[k]` for a `map[string]string` modelled as an
association list: first matching key, zero value `""` when absent. -/
def lookupKV (l : List (String × String)) (k : String) : String :=
  match l with
  | [] => ""
  | kv :: rest => if kv.1 = k then kv.2 else lookupKV rest k

/-- The sorted-key section of `metricFingerprint`: collect the map's
keys, `sort.Strings` them, and emit `k=v,` pairs in sorted key order
(source: `types.go` lines 140–155). -/
def kvSection (l : List (String × String)) : String :=
  ((l.map Prod.fst).insertionSort (fun a b => a ≤ b)).foldl
    (fun s k => s ++ k ++ "=" ++ lookupKV l k ++ ",") ""

/-- Source: `types.go`, `func (m *Metric) metricFingerprint() string`:
name, entity identifiers, hostname, then sorted Labels and sorted
Attributes as `k=v,` pairs. -/
def metricFingerprint (m : Metric) : String :=
  "name=" ++ m.Counter.FieldName ++ "," ++
  "gpu=" ++ m.GPU ++ "," ++
  "gpu_uuid=" ++ m.GPUUUID ++ "," ++
  "gpu_device=" ++ m.GPUDevice ++ "," ++
  "gpu_model_name=" ++ m.GPUModelName ++ "," ++
  "gpu_pci_bus_id=" ++ m.GPUPCIBusID ++ "," ++
  "uuid=" ++ m.UUID ++ "," ++
  "mig_profile=" ++ m.MigProfile ++ "," ++
  "gpu_instance_id=" ++ m.GPUInstanceID ++ "," ++
  "hostname=" ++ m.Hostname ++ "," ++
  kvSection m.Labels ++ kvSection m.Attributes

/-- Source: `types.go`, `type MetricsByCounter map[Counter][]Metric`,
modelled as an association list in one possible iteration order. -/
abbrev MetricsByCounter : Type := List (Counter × List Metric)

/-- Go map read `g[c]` on a `MetricsByCounter`. -/
def alistGet (g : MetricsByCounter) (c : Counter) : Option (List Metric) :=
  match g with
  | [] => none
  | e :: rest => if e.1 = c then some e.2 else alistGet rest c

/-- Go map write `g[c] = v` on a `MetricsByCounter`: replace the entry
if the key is present, append it otherwise. -/
def alistSet (g : MetricsByCounter) (c : Counter) (v : List Metric) : MetricsByCounter :=
  match g with
  | [] => [(c, v)]
  | e :: rest => if e.1 = c then (c, v) :: rest else e :: alistSet rest c v

/-- Keys of a `MetricsByCounter`. -/
def alistKeys (g : MetricsByCounter) : List Counter :=
  g.map Prod.fst

/-- The process-wide `m.gpuCounters map[string]float64` accumulator:
fingerprint to running sum, missing key reads as the zero value, exactly
like a Go map.  Entries here are exact rationals — an idealization
adequate for data-flow properties (which entry is read or written, and
that the stored value is the entry's running total); the binary64
rounding semantics of the running sums themselves is modelled separately
by `AccStateF` below. -/
abbrev AccState : Type := List (String × ℚ)

/-- Go map read `acc[fp]` with zero-value semantics for a missing key. -/
def accGet (acc : AccState) (fp : String) : ℚ :=
  match acc with
  | [] => 0
  | e :: rest => if e.1 = fp then e.2 else accGet rest fp

/-- Go compound assignment `acc[fp] += v`. -/
def accAdd (acc : AccState) (fp : String) (v : ℚ) : AccState :=
  match acc with
  | [] => [(fp, v)]
  | e :: rest => if e.1 = fp then (e.1, e.2 + v) :: rest else e :: accAdd rest fp v

/-- The derived Counter of the accumulator step (source: `run`, lines
348–350): `newCounter := counter; newCounter.FieldName += "_COUNTER";
newCounter.PromType = "counter"`. -/
def derivedCounter (c : Counter) : Counter :=
  { c with FieldName := c.FieldName ++ "_COUNTER", PromType := "counter" }

/-- Inner loop of the accumulator step (source: `run`, lines 352–364):
for each metric, fingerprint it, parse its `Value` (parse failure skips
the metric), add the parsed value to the accumulator entry, and build a
derived metric bound to `newCounter` whose `Value` is the new running
total formatted with full precision. -/
def accumulateCounterMetrics (newCounter : Counter) (acc : AccState) :
    List Metric → AccState × List Metric
  | [] => (acc, [])
  | metricVal :: rest =>
      match parseValue metricVal.Value with
      | none => accumulateCounterMetrics newCounter acc rest
      | some val =>
          let fp := metricFingerprint metricVal
          let acc' := accAdd acc fp val
          let newMetricVal :=
            { metricVal with
                Counter := newCounter
                Value := formatValue (accGet acc' fp) }
          let res := accumulateCounterMetrics newCounter acc' rest
          (res.1, newMetricVal :: res.2)

/-- One entry of the outer accumulator loop folded over the grouping. -/
def extendEntry (st : AccState × MetricsByCounter) (e : Counter × List Metric) :
    AccState × MetricsByCounter :=
  let nc := derivedCounter e.1
  let res := accumulateCounterMetrics nc st.1 e.2
  (res.1, alistSet st.2 nc res.2)

/-- Outer loop of the accumulator step (source: `run`, lines 346–366):
`extended := maps.Clone(metrics)`, then for each entry of the original
grouping add the derived entry `extended[newCounter] = newMetrics`.
Entries are visited in the association list's order, one possible Go map
iteration order. -/
def runExtension (acc : AccState) (metrics : MetricsByCounter) :
    AccState × MetricsByCounter :=
  metrics.foldl extendEntry (acc, metrics)

/-- Model of `type OtelMeters struct`: the three instrument maps keyed
by lower-cased field name.  Only the presence of an instrument handle is
observable in the pipeline, so each map is the list of registered keys. -/
structure OtelMeters where
  Gauge     : List String
  Counter   : List String
  Histogram : List String
deriving DecidableEq, Repr

/-- One step of the instrument-registration loop of `NewMetricsPipeline`
(source: lines 207–226): register the lower-cased field name in the map
matching the counter's `PromType`.  Instrument creation errors abort
construction, so a constructed pipeline has every registration applied. -/
def registerCounter (om : OtelMeters) (counter : Counter) : OtelMeters :=
  let fieldName := counter.FieldName.toLower
  match counter.PromType with
  | "gauge" => { om with Gauge := om.Gauge ++ [fieldName] }
  | "counter" => { om with Counter := om.Counter ++ [fieldName] }
  | "histogram" => { om with Histogram := om.Histogram ++ [fieldName] }
  | _ => om

/-- The instrument registry built at pipeline construction from the
configured counter list (source: `NewMetricsPipeline`, lines 197–227). -/
def makeOtelMeters (counters : List Counter) : OtelMeters :=
  counters.foldl registerCounter ⟨[], [], []⟩

/-- Outcome of one `OtelObserve` call: an instrument operation, a
process-halting panic, or nothing for `PromType`s with no instrument
kind (summary, label). -/
inductive ObserveOutcome where
  | emitted  (instrument : String) (kind : String) (value : ℚ)
      (attrs : List (String × String))
  | panicked (msg : String)
  | skipped
deriving DecidableEq, Repr

/-- Source: `func (m *MetricsPipeline) OtelObserve` (lines 589–628):
lower-case every attribute key, dispatch on `PromType`; a missing
instrument panics, a `Value` that fails to parse as float64 panics,
otherwise the value is recorded/added on the instrument. -/
def OtelObserve (om : OtelMeters) (counter : Counter) (metricVal : Metric)
    (attrs : List (String × String)) : ObserveOutcome :=
  let lowered := attrs.map (fun kv => (kv.1.toLower, kv.2))
  let fieldName := counter.FieldName.toLower
  match counter.PromType with
  | "counter" =>
      if om.Counter.contains fieldName then
        match parseValue metricVal.Value with
        | none => .panicked ("Failed to parse metric value " ++ metricVal.Value
            ++ " as float64")
        | some val => .emitted fieldName "counter" val lowered
      else .panicked ("Counter " ++ fieldName ++ " not found in otelMeters")
  | "gauge" =>
      if om.Gauge.contains fieldName then
        match parseValue metricVal.Value with
        | none => .panicked ("Failed to parse metric value " ++ metricVal.Value
            ++ " as float64")
        | some val => .emitted fieldName "gauge" val lowered
      else .panicked ("Gauge " ++ fieldName ++ " not found in otelMeters")
  | "histogram" =>
      if om.Histogram.contains fieldName then
        match parseValue metricVal.Value with
        | none => .panicked ("Failed to parse metric value " ++ metricVal.Value
            ++ " as float64")
        | some val => .emitted fieldName "histogram" val lowered
      else .panicked ("Histogram " ++ fieldName ++ " not found in otelMeters")
  | _ => .skipped

/-- The per-metric attributes appended by `OtelObserveGpuMetrics`
(lines 471–489): the fixed GPU positional attributes, the optional MIG
and hostname attributes, then `Labels` and `Attributes`. -/
def gpuMetricAttrs (metricVal : Metric) : List (String × String) :=
  [("gpu", metricVal.GPU), (metricVal.UUID, metricVal.GPUUUID),
   ("pci_bus_id", metricVal.GPUPCIBusID), ("device", metricVal.GPUDevice),
   ("modelName", metricVal.GPUModelName)]
  ++ (if metricVal.MigProfile ≠ "" then
        [("GPU_I_PROFILE", metricVal.MigProfile), ("GPU_I_ID", metricVal.GPUInstanceID)]
      else [])
  ++ (if metricVal.Hostname ≠ "" then [("Hostname", metricVal.Hostname)] else [])
  ++ metricVal.Labels ++ metricVal.Attributes

/-- The per-metric attributes appended by `OtelObserveSwitchMetrics`
(lines 502–512). -/
def switchMetricAttrs (metricVal : Metric) : List (String × String) :=
  [("nvswitch", metricVal.GPU)]
  ++ (if metricVal.Hostname ≠ "" then [("Hostname", metricVal.Hostname)] else [])
  ++ metricVal.Labels ++ metricVal.Attributes

/-- The per-metric attributes appended by `OtelObserveLinkMetrics`
(lines 525–536). -/
def linkMetricAttrs (metricVal : Metric) : List (String × String) :=
  [("nvlink", metricVal.GPU), ("nvswitch", metricVal.GPUDevice)]
  ++ (if metricVal.Hostname ≠ "" then [("Hostname", metricVal.Hostname)] else [])
  ++ metricVal.Labels ++ metricVal.Attributes

/-- The per-metric attributes appended by `OtelObserveCpuMetrics`
(lines 549–559). -/
def cpuMetricAttrs (metricVal : Metric) : List (String × String) :=
  [("cpu", metricVal.GPU)]
  ++ (if metricVal.Hostname ≠ "" then [("Hostname", metricVal.Hostname)] else [])
  ++ metricVal.Labels ++ metricVal.Attributes

/-- The per-metric attributes appended by `OtelObserveCpuCoreMetrics`
(lines 572–583). -/
def cpuCoreMetricAttrs (metricVal : Metric) : List (String × String) :=
  [("cpucore", metricVal.GPU), ("cpu", metricVal.GPUDevice)]
  ++ (if metricVal.Hostname ≠ "" then [("Hostname", metricVal.Hostname)] else [])
  ++ metricVal.Labels ++ metricVal.Attributes

/-- Inner loop shared by every `OtelObserve*Metrics` function: the
`attrs` slice is allocated once per counter and appended to across the
metric list (it is never reset between metrics, so metric `i` observes
the attributes of metrics `0..i`), and each metric is passed to
`OtelObserve`; an `OtelObserve` panic aborts the whole call. -/
def observeEntryMetrics (om : OtelMeters) (counter : Counter)
    (mkAttrs : Metric → List (String × String)) (attrs : List (String × String)) :
    List Metric → Except String (List ObserveOutcome)
  | [] => .ok []
  | metricVal :: rest =>
      let attrs' := attrs ++ mkAttrs metricVal
      match OtelObserve om counter metricVal attrs' with
      | .panicked msg => .error msg
      | outcome =>
          match observeEntryMetrics om counter mkAttrs attrs' rest with
          | .error msg => .error msg
          | .ok outs => .ok (outcome :: outs)

/-- Outer loop shared by every `OtelObserve*Metrics` function: each
counter entry unconditionally reads `metricVals[0]` (to size the
attribute buffer), which is an out-of-range panic when the metric list
is empty; then the inner loop runs over the list. -/
def observeGroupMetrics (om : OtelMeters) (mkAttrs : Metric → List (String × String)) :
    MetricsByCounter → Except String (List ObserveOutcome)
  | [] => .ok []
  | (_, []) :: _ => .error "runtime error: index out of range [0] with length 0"
  | (counter, metricVals) :: rest =>
      match observeEntryMetrics om counter mkAttrs [] metricVals with
      | .error msg => .error msg
      | .ok outs =>
          match observeGroupMetrics om mkAttrs rest with
          | .error msg => .error msg
          | .ok more => .ok (outs ++ more)

/-- Source: `OtelObserveGpuMetrics` (lines 461–493). -/
def OtelObserveGpuMetrics (om : OtelMeters) (metrics : MetricsByCounter) :
    Except String (List ObserveOutcome) :=
  observeGroupMetrics om gpuMetricAttrs metrics

/-- Source: `OtelObserveSwitchMetrics` (lines 495–516). -/
def OtelObserveSwitchMetrics (om : OtelMeters) (metrics : MetricsByCounter) :
    Except String (List ObserveOutcome) :=
  observeGroupMetrics om switchMetricAttrs metrics

/-- Source: `OtelObserveLinkMetrics` (lines 518–540). -/
def OtelObserveLinkMetrics (om : OtelMeters) (metrics : MetricsByCounter) :
    Except String (List ObserveOutcome) :=
  observeGroupMetrics om linkMetricAttrs metrics

/-- Source: `OtelObserveCpuMetrics` (lines 542–563). -/
def OtelObserveCpuMetrics (om : OtelMeters) (metrics : MetricsByCounter) :
    Except String (List ObserveOutcome) :=
  observeGroupMetrics om cpuMetricAttrs metrics

/-- Source: `OtelObserveCpuCoreMetrics` (lines 565–587). -/
def OtelObserveCpuCoreMetrics (om : OtelMeters) (metrics : MetricsByCounter) :
    Except String (List ObserveOutcome) :=
  observeGroupMetrics om cpuCoreMetricAttrs metrics

/-- A bounded string channel: capacity plus current buffer contents. -/
structure Chan where
  cap : Nat
  buf : List String
deriving DecidableEq, Repr

/-- What a scheduler-side channel operation does in one loop iteration:
deliver into the buffer, block awaiting a consumer (send on a full
channel), or drop the value after the capacity check. -/
inductive SchedPush where
  | sent    (ch : Chan)
  | blocked (pending : String)
  | dropped
deriving DecidableEq, Repr

/-- A Go channel send `out <- s`: delivers when the buffer has room,
otherwise blocks until a consumer receives. -/
def chanSend (ch : Chan) (s : String) : SchedPush :=
  if ch.buf.length < ch.cap then .sent ⟨ch.cap, ch.buf ++ [s]⟩ else .blocked s

/-- The per-tick push logic of `Run` (source: lines 305–317): on a cycle
error, `out <- ""` unconditionally; on success, drop (and log) when
`len(out) == cap(out)`, else `out <- o`. -/
def schedStep (res : Except String String) (ch : Chan) : SchedPush :=
  match res with
  | .error _ => chanSend ch ""
  | .ok o => if ch.buf.length = ch.cap then .dropped else chanSend ch o

/-- The five entity groups, in the fixed order `run` processes them. -/
inductive GroupTag where
  | gpu | nvswitch | nvlink | cpu | cpucore
deriving DecidableEq, Repr

/-- Mutable state threaded through one `run` cycle: the accumulated
`formatted` output string and the trace of groupings handed to the
`OtelObserve*Metrics` emitters, in call order. -/
structure CycleState where
  formatted : String
  emitted   : List (GroupTag × MetricsByCounter)
deriving DecidableEq, Repr

/-- The external collaborators of one cycle, per the collector /
transform / renderer contracts: for each group, `none` when the
collector is nil, otherwise the outcome of its `GetMetrics`; the
transform stages as name/process pairs; whether an OTel meter is
configured; and the outcome of each group's `FormatMetrics` template
execution (`FormatMetrics` returns `("", err)` on error). -/
structure CycleEnv where
  gpu      : Option (Except String MetricsByCounter)
  nvswitch : Option (Except String MetricsByCounter)
  nvlink   : Option (Except String MetricsByCounter)
  cpu      : Option (Except String MetricsByCounter)
  core     : Option (Except String MetricsByCounter)
  transforms   : List (String × (MetricsByCounter → Except String MetricsByCounter))
  otelEnabled  : Bool
  renderGpu    : MetricsByCounter → Except String String
  renderSwitch : MetricsByCounter → Except String String
  renderLink   : MetricsByCounter → Except String String
  renderCpu    : MetricsByCounter → Except String String
  renderCore   : MetricsByCounter → Except String String

/-- The transform loop of `run` (lines 335–340): each stage runs in
configured order; a stage error aborts the cycle.  A Go `Process` call
mutates the grouping in place, modelled by returning the new grouping. -/
def applyTransforms : List (String × (MetricsByCounter → Except String MetricsByCounter)) →
    MetricsByCounter → Except String MetricsByCounter
  | [], g => .ok g
  | (name, proc) :: rest, g =>
      match proc g with
      | .error e => .error ("failed to transform metrics for transform " ++ name
          ++ "; err: " ++ e)
      | .ok g' => applyTransforms rest g'

/-- Result of the GPU stage of `run`: fatal error (with the accumulator
and emit trace as mutated so far) or success. -/
inductive GpuOut where
  | fatal (e : String) (acc : AccState) (emitted : List (GroupTag × MetricsByCounter))
  | ok (acc : AccState) (st : CycleState)

/-- The GPU stage of `run` (lines 328–372): collect (error fatal),
transform (error fatal), emit to the meter when configured, run the
accumulator extension, render the extended grouping (error fatal). -/
def gpuStage (env : CycleEnv) (acc0 : AccState) : GpuOut :=
  match env.gpu with
  | none => .ok acc0 ⟨"", []⟩
  | some (.error e) => .fatal ("failed to collect gpu metrics; err: " ++ e) acc0 []
  | some (.ok g0) =>
      match applyTransforms env.transforms g0 with
      | .error e => .fatal e acc0 []
      | .ok g =>
          let emitted := if env.otelEnabled then [(GroupTag.gpu, g)] else []
          let res := runExtension acc0 g
          match env.renderGpu res.2 with
          | .error e => .fatal ("failed to format metrics; err: " ++ e) res.1 emitted
          | .ok txt => .ok res.1 ⟨txt, emitted⟩

/-- One non-GPU stage of `run` (the switch stage is lines 374–393; link,
CPU and CPU-core are structurally identical): collect (error fatal,
reported to the caller), emit to the meter when configured, then, when
the grouping is non-empty, render; a render error is only logged and the
zero-value `""` is appended in place of the group's text. -/
def groupStage (tag : GroupTag) (collect : Option (Except String MetricsByCounter))
    (otelEnabled : Bool) (render : MetricsByCounter → Except String String)
    (errText : String) (st : CycleState) : CycleState × Option String :=
  match collect with
  | none => (st, none)
  | some (.error e) => (st, some (errText ++ e))
  | some (.ok metrics) =>
      let st' := if otelEnabled then
          { st with emitted := st.emitted ++ [(tag, metrics)] } else st
      if 0 < metrics.length then
        match render metrics with
        | .error _ => ({ st' with formatted := st'.formatted ++ "" }, none)
        | .ok txt => ({ st' with formatted := st'.formatted ++ txt }, none)
      else (st', none)

/-- Result of a full `run` cycle: the returned string and error, the
accumulator as left by the cycle, and the emit trace. -/
structure RunResult where
  output  : String
  err     : Option String
  acc     : AccState
  emitted : List (GroupTag × MetricsByCounter)
deriving Repr

/-- Sequencing of one non-GPU stage inside `run`: a collection error
aborts the cycle with `("", err)` (keeping the emit trace so far), a
successful stage passes its updated state to the rest of the cycle. -/
def stepStage (acc : AccState) (res : CycleState × Option String)
    (k : CycleState → RunResult) : RunResult :=
  match res with
  | (st, some e) => ⟨"", some e, acc, st.emitted⟩
  | (st, none) => k st

/-- The switch, link, CPU and CPU-core stages of `run` (lines 374–456),
in order, each aborting the cycle with `("", err)` on a collection
error. -/
def runRest (env : CycleEnv) (acc : AccState) (st : CycleState) : RunResult :=
  stepStage acc (groupStage .nvswitch env.nvswitch env.otelEnabled env.renderSwitch
      "failed to collect switch metrics; err: " st) (fun st1 =>
  stepStage acc (groupStage .nvlink env.nvlink env.otelEnabled env.renderLink
      "failed to collect link metrics; err: " st1) (fun st2 =>
  stepStage acc (groupStage .cpu env.cpu env.otelEnabled env.renderCpu
      "failed to collect CPU metrics; err: " st2) (fun st3 =>
  stepStage acc (groupStage .cpucore env.core env.otelEnabled env.renderCore
      "failed to collect CPU core metrics; err: " st3) (fun st4 =>
  ⟨st4.formatted, none, acc, st4.emitted⟩))))

/-- Source: `func (m *MetricsPipeline) run() (string, error)` (lines
322–459): the GPU stage followed by the four other group stages, with
every fatal path returning `("", err)`. -/
def runCycle (env : CycleEnv) (acc0 : AccState) : RunResult :=
  match gpuStage env acc0 with
  | .fatal e acc emitted => ⟨"", some e, acc, emitted⟩
  | .ok acc st => runRest env acc st

/-- The per-group exposition section a successful cycle contributes for
a non-GPU group: empty when the collector is absent or the grouping is
empty, the rendered text on render success, and the zero-value `""`
(the group's section is omitted) on render failure. -/
def sectionText (collect : Option (Except String MetricsByCounter))
    (render : MetricsByCounter → Except String String) : String :=
  match collect with
  | some (.ok metrics) =>
      if 0 < metrics.length then
        match render metrics with
        | .error _ => ""
        | .ok txt => txt
      else ""
  | _ => ""

/-- The emit-trace entries a non-GPU group contributes. -/
def sectionEmit (tag : GroupTag) (collect : Option (Except String MetricsByCounter))
    (otelEnabled : Bool) : List (GroupTag × MetricsByCounter) :=
  match collect with
  | some (.ok metrics) => if otelEnabled then [(tag, metrics)] else []
  | _ => []

/-- A collector that is present and whose `GetMetrics` errored. -/
def isCollErr (o : Option (Except String MetricsByCounter)) : Prop :=
  ∃ e, o = some (.error e)

/-- The contribution of one metric to the accumulator entry of
fingerprint `fp` in one cycle: its parsed value when its fingerprint is
`fp`, `0` when it has a different fingerprint or its value is skipped as
unparseable. -/
def fpContrib (fp : String) (m : Metric) : ℚ :=
  match parseValue m.Value with
  | none => 0
  | some v => if metricFingerprint m = fp then v else 0

/-- Total contribution of a metric list to fingerprint `fp`. -/
def fpSumList (fp : String) (ms : List Metric) : ℚ :=
  (ms.map (fpContrib fp)).sum

/-- Total contribution of a whole grouping to fingerprint `fp` in one
cycle of the accumulator extension. -/
def fpCycleSum (fp : String) (g : MetricsByCounter) : ℚ :=
  (g.map (fun e => fpSumList fp e.2)).sum

/-- The accumulator component of the extension fold, on its own. -/
def extendAcc (acc : AccState) (es : List (Counter × List Metric)) : AccState :=
  es.foldl (fun a e => (accumulateCounterMetrics (derivedCounter e.1) a e.2).1) acc

/-- The accumulator after `k` consecutive cycles that each run the
counter extension on the same collected grouping `g`. -/
def iterExtension (g : MetricsByCounter) (acc : AccState) : Nat → AccState
  | 0 => acc
  | k + 1 => iterExtension g (runExtension acc g).1 k

/-- Whether the instrument map matching the counter's `PromType` has an
instrument registered under the lower-cased field name. -/
def instrumentRegistered (om : OtelMeters) (c : Counter) : Bool :=
  match c.PromType with
  | "counter" => om.Counter.contains c.FieldName.toLower
  | "gauge" => om.Gauge.contains c.FieldName.toLower
  | "histogram" => om.Histogram.contains c.FieldName.toLower
  | _ => false

/-- Whether an `OtelObserve` outcome is a process-halting panic. -/
def panics : ObserveOutcome → Bool
  | .panicked _ => true
  | _ => false

/-- The running accumulated totals the derived-metric construction
reads: for each parseable metric of an entry, in order, the accumulator
entry for its fingerprint immediately after `m.gpuCounters[fp] += val`
(the `m.gpuCounters[fp]` read on line 362 that becomes the derived
metric's `Value`). -/
def runningTotals (acc : AccState) : List Metric → List (Metric × ℚ)
  | [] => []
  | metricVal :: rest =>
      match parseValue metricVal.Value with
      | none => runningTotals acc rest
      | some val =>
          let fp := metricFingerprint metricVal
          let acc' := accAdd acc fp val
          (metricVal, accGet acc' fp) :: runningTotals acc' rest

/-- A finite binary64 value as a dyadic rational `m · 2^e` (sign in
`m`, representation not canonical).  The exponent is unbounded, so
overflow to infinity and subnormal underflow are outside the model;
within the normal range the rounding below is exactly IEEE 754
round-to-nearest, ties-to-even. -/
structure F64 where
  m : Int
  e : Int
deriving DecidableEq, Repr

/-- Floor of the base-2 logarithm, by structural recursion on a fuel
argument (same value as `Nat.log2`, stated so that it reduces in the
kernel). -/
def log2fuel : Nat → Nat → Nat
  | 0, _ => 0
  | fuel + 1, n => if 2 ≤ n then log2fuel fuel (n / 2) + 1 else 0

/-- Floor of the base-2 logarithm of a positive natural number. -/
def nlog2 (n : Nat) : Nat := log2fuel n n

/-- Whether two dyadic representations denote the same real value. -/
def F64.sameVal (a b : F64) : Bool :=
  a.m * 2 ^ (a.e - min a.e b.e).toNat == b.m * 2 ^ (b.e - min a.e b.e).toNat

/-- Round `M · 2^E` to 53 significant bits, nearest, ties to even: the
binary64 rounding step.  A significand of 53 bits or fewer is exact. -/
def f64Round (M E : Int) : F64 :=
  if M.natAbs < 2 ^ 53 then ⟨M, E⟩
  else
    let t := nlog2 M.natAbs + 1 - 53
    let q := M.natAbs / 2 ^ t
    let r := M.natAbs % 2 ^ t
    let half := 2 ^ (t - 1)
    let q' := if half < r ∨ (r = half ∧ q % 2 = 1) then q + 1 else q
    ⟨if M < 0 then -(q' : Int) else (q' : Int), E + (t : Int)⟩

/-- Binary64 addition (`float64 +` in Go): align both summands to the
smaller exponent, add exactly, round once. -/
def f64Add (a b : F64) : F64 :=
  f64Round
    (a.m * 2 ^ (a.e - min a.e b.e).toNat + b.m * 2 ^ (b.e - min a.e b.e).toNat)
    (min a.e b.e)

/-- Numerator and denominator of the scaled rational `(n/d) · 2^s`. -/
def f64Scaled (n d : Nat) (s : Int) : Nat × Nat :=
  (n * 2 ^ s.toNat, d * 2 ^ (-s).toNat)

/-- The binary64 nearest to a rational, ties to even: the value
`strconv.ParseFloat` yields for a decimal literal.  An integer of at
most 53 bits is represented as itself at exponent 0; otherwise the
significand is scaled into `[2^52, 2^53)` and rounded. -/
def f64OfRat (q : ℚ) : F64 :=
  if q.num = 0 then ⟨0, 0⟩
  else if q.den = 1 ∧ q.num.natAbs < 2 ^ 53 then ⟨q.num, 0⟩
  else
    let n := q.num.natAbs
    let d := q.den
    let s0 : Int := 52 + (nlog2 d : Int) - (nlog2 n : Int)
    let s : Int := if 2 ^ 52 * (f64Scaled n d s0).2 ≤ (f64Scaled n d s0).1 then s0
      else s0 + 1
    let N := (f64Scaled n d s).1
    let D := (f64Scaled n d s).2
    let q0 := N / D
    let r := N % D
    let q1 := if D < 2 * r ∨ (2 * r = D ∧ q0 % 2 = 1) then q0 + 1 else q0
    ⟨if q.num < 0 then -(q1 : Int) else (q1 : Int), -s⟩

/-- Model of `strconv.ParseFloat(value, 64)` with binary64 value
semantics: the exact decimal value rounded to the nearest double. -/
def f64OfString (s : String) : Option F64 :=
  (parseValue s).map f64OfRat

/-- The exact real multiple `k · v` of a binary64 value (a dyadic, so
expressible without rounding): the right-hand side of the claim's
`k·v`. -/
def f64ScaleExact (k : Int) (a : F64) : F64 :=
  ⟨k * a.m, a.e⟩

/-- The `gpuCounters` accumulator with binary64 entries. -/
abbrev AccStateF : Type := List (String × F64)

/-- Go map read with the float64 zero value `0.0` for a missing key. -/
def accGetF (acc : AccStateF) (fp : String) : F64 :=
  match acc with
  | [] => ⟨0, 0⟩
  | e :: rest => if e.1 = fp then e.2 else accGetF rest fp

/-- Go `acc[fp] += v` on a `map[string]float64`: read (the zero value
when the key is missing), add with binary64 rounding, store. -/
def accAddF (acc : AccStateF) (fp : String) (v : F64) : AccStateF :=
  match acc with
  | [] => [(fp, f64Add ⟨0, 0⟩ v)]
  | e :: rest =>
      if e.1 = fp then (e.1, f64Add e.2 v) :: rest else e :: accAddF rest fp v

/-- The accumulator writes of the inner loop (source: `run`, lines
352–359) under binary64 value semantics: fingerprint each metric, parse
its `Value` (skip on failure), `m.gpuCounters[fp] += val`.  The
derived-metric construction of lines 360–363 is value-independent data
flow and is covered by the exact-value model above. -/
def accumulateValuesF (acc : AccStateF) : List Metric → AccStateF
  | [] => acc
  | metricVal :: rest =>
      match f64OfString metricVal.Value with
      | none => accumulateValuesF acc rest
      | some val => accumulateValuesF (accAddF acc (metricFingerprint metricVal) val) rest

/-- The accumulator after the outer loop of lines 346–366 over the whole
grouping, binary64 semantics. -/
def runExtensionAccF (acc : AccStateF) (metrics : MetricsByCounter) : AccStateF :=
  metrics.foldl (fun a e => accumulateValuesF a e.2) acc

/-- The binary64 accumulator after `k` consecutive cycles that each run
the extension on the same collected grouping. -/
def iterExtensionAccF (g : MetricsByCounter) (acc : AccStateF) : Nat → AccStateF
  | 0 => acc
  | k + 1 => runExtensionAccF (iterExtensionAccF g acc k) g

/-- The k-fold binary64 sum `0.0 + v + ⋯ + v` (k additions, as the
accumulator performs them). -/
def f64SumRepeat (v : F64) : Nat → F64
  | 0 => ⟨0, 0⟩
  | k + 1 => f64Add (f64SumRepeat v k) v

/-- A concrete GPU gauge metric used to evaluate the model. -/
def mFix : Metric :=
  { Counter := ⟨1, "FOO", "gauge", "h"⟩, Value := "42",
    GPU := "0", GPUUUID := "GPU-a", GPUDevice := "nvidia0", GPUModelName := "L4",
    GPUPCIBusID := "00:01", UUID := "UUID", MigProfile := "", GPUInstanceID := "",
    Hostname := "node1", Labels := [], Attributes := [] }

/-- The counter of `mFix`. -/
def cFix : Counter := ⟨1, "FOO", "gauge", "h"⟩

/-- A one-entry GPU grouping. -/
def gFix : MetricsByCounter := [(cFix, [mFix])]

/-- An original counter that coincides with `derivedCounter cFix`. -/
def cColl : Counter := ⟨1, "FOO_COUNTER", "counter", "h"⟩

/-- A grouping in which an original key equals the derived key of
another entry. -/
def gColl : MetricsByCounter := [(cFix, [mFix]), (cColl, [])]

/-- A GPU metric carrying the decimal value 0.1, which is not exactly
representable in binary64. -/
def m01 : Metric := { mFix with Value := "0.1" }

/-- A one-entry grouping holding the 0.1-valued metric. -/
def g01 : MetricsByCounter := [(cFix, [m01])]

/-- A GPU metric whose `Value` does not parse as a float. -/
def mBad : Metric := { mFix with Value := "notanumber" }

/-- A grouping containing the unparseable metric. -/
def gBad : MetricsByCounter := [(cFix, [mBad])]

/-- A cycle environment whose GPU grouping contains the unparseable
metric and everything else succeeds. -/
def envBad : CycleEnv :=
  ⟨some (.ok gBad), none, none, none, none, [], false,
    fun _ => .ok "GPU TEXT", fun _ => .ok "", fun _ => .ok "",
    fun _ => .ok "", fun _ => .ok ""⟩

/-- A cycle environment whose switch render fails while every collector
succeeds. -/
def envRenderFail : CycleEnv :=
  ⟨some (.ok gFix), some (.ok gFix), none, none, none, [], false,
    fun _ => .ok "GPU TEXT", fun _ => .error "bad template",
    fun _ => .ok "", fun _ => .ok "", fun _ => .ok ""⟩

section Helpers

lemma alistGet_set_self (g : MetricsByCounter) (c : Counter) (v : List Metric) :
    alistGet (alistSet g c v) c = some v := by
  induction g with
  | nil => simp [alistSet, alistGet]
  | cons e rest ih =>
      by_cases h : e.1 = c
      · simp [alistSet, alistGet, h]
      · simp [alistSet, alistGet, h, ih]

lemma alistGet_set_ne (g : MetricsByCounter) (c c' : Counter) (v : List Metric)
    (h : c' ≠ c) : alistGet (alistSet g c v) c' = alistGet g c' := by
  induction g with
  | nil => simp [alistSet, alistGet, Ne.symm h]
  | cons e rest ih =>
      by_cases he : e.1 = c
      · have hec : e.1 ≠ c' := by rw [he]; exact Ne.symm h
        simp [alistSet, alistGet, he, Ne.symm h, hec]
      · by_cases he' : e.1 = c'
        · simp [alistSet, alistGet, he, he', h]
        · simp [alistSet, alistGet, he, he', ih]

lemma alistGet_of_mem_nodup (g : MetricsByCounter) (c : Counter) (ms : List Metric)
    (hmem : (c, ms) ∈ g) (hnd : (alistKeys g).Nodup) : alistGet g c = some ms := by
  induction g with
  | nil => cases hmem
  | cons e rest ih =>
      rw [alistKeys, List.map_cons, List.nodup_cons] at hnd
      rcases List.mem_cons.mp hmem with h | h
      · subst h; simp [alistGet]
      · have hc : c ∈ List.map Prod.fst rest := List.mem_map_of_mem Prod.fst h
        have hne : e.1 ≠ c := by
          intro hh
          exact hnd.1 (hh ▸ hc)
        simp [alistGet, hne, ih h hnd.2]

lemma alistGet_isSome_set (g : MetricsByCounter) (c c' : Counter) (v : List Metric)
    (h : (alistGet g c').isSome) : (alistGet (alistSet g c v) c').isSome := by
  by_cases hc : c' = c
  · subst hc; simp [alistGet_set_self]
  · rwa [alistGet_set_ne _ _ _ _ hc]

lemma accGet_accAdd_self (acc : AccState) (fp : String) (v : ℚ) :
    accGet (accAdd acc fp v) fp = accGet acc fp + v := by
  induction acc with
  | nil => simp [accAdd, accGet]
  | cons e rest ih =>
      by_cases h : e.1 = fp
      · simp [accAdd, accGet, h]
      · simp [accAdd, accGet, h, ih]

lemma accGet_accAdd_ne (acc : AccState) (fp fp' : String) (v : ℚ)
    (h : fp' ≠ fp) : accGet (accAdd acc fp v) fp' = accGet acc fp' := by
  induction acc with
  | nil => simp [accAdd, accGet, Ne.symm h]
  | cons e rest ih =>
      by_cases he : e.1 = fp
      · have hec : e.1 ≠ fp' := by rw [he]; exact Ne.symm h
        simp [accAdd, accGet, he, Ne.symm h, hec]
      · by_cases he' : e.1 = fp'
        · simp [accAdd, accGet, he, he', h]
        · simp [accAdd, accGet, he, he', ih]

lemma accumulate_fst_get (nc : Counter) (fp : String) :
    ∀ (ms : List Metric) (acc : AccState),
      accGet (accumulateCounterMetrics nc acc ms).1 fp = accGet acc fp + fpSumList fp ms := by
  intro ms
  induction ms with
  | nil => intro acc; simp [accumulateCounterMetrics, fpSumList]
  | cons m rest ih =>
      intro acc
      rcases hp : parseValue m.Value with _ | v
      · simp [accumulateCounterMetrics, hp, fpSumList, fpContrib, ih]
      · by_cases hfp : metricFingerprint m = fp
        · simp only [accumulateCounterMetrics, hp]
          rw [ih, hfp, accGet_accAdd_self]
          simp [fpSumList, fpContrib, hp, hfp]
          ring
        · simp only [accumulateCounterMetrics, hp]
          rw [ih, accGet_accAdd_ne _ _ _ _ (fun hh => hfp hh.symm)]
          simp [fpSumList, fpContrib, hp, hfp]

lemma foldl_ext_fst : ∀ (es : List (Counter × List Metric)) (st : AccState × MetricsByCounter),
    (List.foldl extendEntry st es).1 = extendAcc st.1 es := by
  intro es
  induction es with
  | nil => intro st; simp [extendAcc]
  | cons e rest ih =>
      intro st
      simp only [List.foldl_cons, ih, extendAcc, extendEntry]

lemma extendAcc_get (fp : String) : ∀ (es : List (Counter × List Metric)) (acc : AccState),
    accGet (extendAcc acc es) fp = accGet acc fp + fpCycleSum fp es := by
  intro es
  induction es with
  | nil => intro acc; simp [extendAcc, fpCycleSum]
  | cons e rest ih =>
      intro acc
      simp only [extendAcc, List.foldl_cons] at ih ⊢
      rw [ih, accumulate_fst_get]
      simp [fpCycleSum, fpSumList]
      ring

lemma runExtension_fst_get (acc : AccState) (g : MetricsByCounter) (fp : String) :
    accGet (runExtension acc g).1 fp = accGet acc fp + fpCycleSum fp g := by
  rw [runExtension, foldl_ext_fst, extendAcc_get]

lemma iterExtension_get (g : MetricsByCounter) (fp : String) :
    ∀ (k : Nat) (acc : AccState),
      accGet (iterExtension g acc k) fp = accGet acc fp + (k : ℚ) * fpCycleSum fp g := by
  intro k
  induction k with
  | zero => intro acc; simp [iterExtension]
  | succ k ih =>
      intro acc
      rw [iterExtension, ih, runExtension_fst_get]
      push_cast
      ring

lemma fpSumList_zero (fp : String) (ms : List Metric)
    (h : ∀ m' ∈ ms, metricFingerprint m' ≠ fp) : fpSumList fp ms = 0 := by
  induction ms with
  | nil => simp [fpSumList]
  | cons m rest ih =>
      have hm := h m (List.mem_cons_self m rest)
      have hr := ih (fun m' hm' => h m' (List.mem_cons_of_mem m hm'))
      simp only [fpSumList, List.map_cons, List.sum_cons] at hr ⊢
      rw [hr]
      rcases hp : parseValue m.Value with _ | v
      · simp [fpContrib, hp]
      · simp [fpContrib, hp, hm]

lemma foldl_ext_get_preserve (key : Counter) :
    ∀ (es : List (Counter × List Metric)) (st : AccState × MetricsByCounter),
      (∀ e ∈ es, derivedCounter e.1 ≠ key) →
      alistGet (List.foldl extendEntry st es).2 key = alistGet st.2 key := by
  intro es
  induction es with
  | nil => intro st _; rfl
  | cons e rest ih =>
      intro st h
      rw [List.foldl_cons, ih _ (fun e' he' => h e' (List.mem_cons_of_mem e he'))]
      exact alistGet_set_ne _ _ _ _ (Ne.symm (h e (List.mem_cons_self e rest)))

lemma foldl_ext_get_mid (c : Counter) (ms : List Metric) :
    ∀ (gpre gpost : List (Counter × List Metric)) (st : AccState × MetricsByCounter),
      (∀ e ∈ gpost, derivedCounter e.1 ≠ derivedCounter c) →
      alistGet (List.foldl extendEntry st (gpre ++ (c, ms) :: gpost)).2 (derivedCounter c)
        = some ((accumulateCounterMetrics (derivedCounter c)
            (extendAcc st.1 gpre) ms).2) := by
  intro gpre
  induction gpre with
  | nil =>
      intro gpost st h
      rw [List.nil_append, List.foldl_cons, foldl_ext_get_preserve _ _ _ h]
      simp only [extendEntry, extendAcc, List.foldl_nil]
      exact alistGet_set_self _ _ _
  | cons e rest ih =>
      intro gpost st h
      rw [List.cons_append, List.foldl_cons, ih _ _ h]
      simp only [extendAcc, List.foldl_cons, extendEntry]

lemma alistGet_isSome_foldl_ext (key : Counter) :
    ∀ (es : List (Counter × List Metric)) (st : AccState × MetricsByCounter),
      (alistGet st.2 key).isSome →
      (alistGet (List.foldl extendEntry st es).2 key).isSome := by
  intro es
  induction es with
  | nil => intro st h; exact h
  | cons e rest ih =>
      intro st h
      rw [List.foldl_cons]
      exact ih _ (alistGet_isSome_set _ _ _ _ h)

lemma foldl_ext_derived_isSome (e : Counter × List Metric) :
    ∀ (es : List (Counter × List Metric)) (st : AccState × MetricsByCounter),
      e ∈ es →
      (alistGet (List.foldl extendEntry st es).2 (derivedCounter e.1)).isSome := by
  intro es
  induction es with
  | nil => intro st h; cases h
  | cons e' rest ih =>
      intro st h
      rcases List.mem_cons.mp h with h | h
      · subst h
        rw [List.foldl_cons]
        apply alistGet_isSome_foldl_ext
        simp only [extendEntry]
        rw [alistGet_set_self]
        rfl
      · rw [List.foldl_cons]
        exact ih _ h

lemma accumulate_skip (nc : Counter) (m : Metric) (hp : parseValue m.Value = none) :
    ∀ (pre post : List Metric) (acc : AccState),
      accumulateCounterMetrics nc acc (pre ++ m :: post)
        = accumulateCounterMetrics nc acc (pre ++ post) := by
  intro pre
  induction pre with
  | nil => intro post acc; simp [accumulateCounterMetrics, hp]
  | cons m' rest ih =>
      intro post acc
      rcases hp' : parseValue m'.Value with _ | v
      · simp only [List.cons_append, accumulateCounterMetrics, hp']
        exact ih post acc
      · simp only [List.cons_append, accumulateCounterMetrics, hp']
        rw [show ∀ l : List Metric, rest.append l = rest ++ l from fun _ => rfl,
          show rest ++ (m :: post) = rest ++ m :: post from rfl, ih]
        rfl

lemma accumulate_mem_derived (nc : Counter) (m : Metric) (v : ℚ)
    (hv : parseValue m.Value = some v) :
    ∀ (pre post : List Metric) (acc : AccState),
      (∀ m' ∈ pre, metricFingerprint m' ≠ metricFingerprint m) →
      { m with
          Counter := nc
          Value := formatValue (accGet acc (metricFingerprint m) + v) }
        ∈ (accumulateCounterMetrics nc acc (pre ++ m :: post)).2 := by
  intro pre
  induction pre with
  | nil =>
      intro post acc _
      simp only [List.nil_append, accumulateCounterMetrics, hv]
      rw [accGet_accAdd_self]
      exact List.mem_cons_self _ _
  | cons m' rest ih =>
      intro post acc h
      have hm' := h m' (List.mem_cons_self m' rest)
      have hr := fun m'' hm'' => h m'' (List.mem_cons_of_mem m' hm'')
      rcases hp' : parseValue m'.Value with _ | v'
      · simp only [List.cons_append, accumulateCounterMetrics, hp']
        exact ih post acc hr
      · simp only [List.cons_append, accumulateCounterMetrics, hp']
        refine List.mem_cons_of_mem _ ?_
        have := ih post (accAdd acc (metricFingerprint m') v') hr
        rwa [accGet_accAdd_ne _ _ _ _ hm'.symm] at this

lemma accumulate_forall2 (nc : Counter) :
    ∀ (ms : List Metric) (acc : AccState),
      List.Forall₂
        (fun m dm => ∃ t : ℚ, dm = { m with Counter := nc, Value := formatValue t })
        (ms.filter (fun m => (parseValue m.Value).isSome))
        (accumulateCounterMetrics nc acc ms).2 := by
  intro ms
  induction ms with
  | nil => intro acc; simp [accumulateCounterMetrics]
  | cons m rest ih =>
      intro acc
      rcases hp : parseValue m.Value with _ | v
      · simpa [accumulateCounterMetrics, hp, List.filter_cons] using ih acc
      · simp only [accumulateCounterMetrics, hp, List.filter_cons, Option.isSome_some,
          if_true]
        exact List.Forall₂.cons ⟨_, rfl⟩ (ih _)

lemma lookupKV_perm : ∀ {l1 l2 : List (String × String)}, l1.Perm l2 →
    (l1.map Prod.fst).Nodup → ∀ k, lookupKV l1 k = lookupKV l2 k := by
  intro l1 l2 hp
  induction hp with
  | nil => intro _ _; rfl
  | cons x h ih =>
      intro hnd k
      rw [List.map_cons, List.nodup_cons] at hnd
      by_cases hx : x.1 = k
      · simp [lookupKV, hx]
      · simp [lookupKV, hx, ih hnd.2 k]
  | swap x y l =>
      intro hnd k
      rw [List.map_cons, List.map_cons, List.nodup_cons, List.nodup_cons] at hnd
      have hxy : y.1 ≠ x.1 := by
        intro hh
        exact hnd.1 (hh ▸ List.mem_cons_self _ _)
      by_cases hy : y.1 = k
      · have hx : x.1 ≠ k := fun hh => hxy (hy.trans hh.symm)
        simp [lookupKV, hx, hy]
      · by_cases hx : x.1 = k
        · simp [lookupKV, hx, hy]
        · simp [lookupKV, hx, hy]
  | trans h1 h2 ih1 ih2 =>
      intro hnd k
      have hnd2 := ((h1.map Prod.fst).nodup_iff).mp hnd
      rw [ih1 hnd k, ih2 hnd2 k]

lemma kvFold_congr (l1 l2 : List (String × String))
    (hlk : ∀ k, lookupKV l1 k = lookupKV l2 k) :
    ∀ (keys : List String) (s : String),
      keys.foldl (fun s k => s ++ k ++ "=" ++ lookupKV l1 k ++ ",") s
        = keys.foldl (fun s k => s ++ k ++ "=" ++ lookupKV l2 k ++ ",") s := by
  intro keys
  induction keys with
  | nil => intro s; rfl
  | cons key rest ih => intro s; rw [List.foldl_cons, List.foldl_cons, hlk key, ih]

lemma kvSection_perm (l1 l2 : List (String × String)) (hp : l1.Perm l2)
    (hnd : (l1.map Prod.fst).Nodup) : kvSection l1 = kvSection l2 := by
  have hkeys : List.insertionSort (fun a b => a ≤ b) (l1.map Prod.fst)
      = List.insertionSort (fun a b => a ≤ b) (l2.map Prod.fst) :=
    List.eq_of_perm_of_sorted
      ((List.perm_insertionSort _ _).trans
        ((hp.map Prod.fst).trans (List.perm_insertionSort _ _).symm))
      (List.sorted_insertionSort _ _) (List.sorted_insertionSort _ _)
  rw [kvSection, kvSection, hkeys, kvFold_congr l1 l2 (lookupKV_perm hp hnd)]

lemma registerCounter_counter_mono (om : OtelMeters) (c : Counter) (x : String)
    (h : om.Counter.contains x = true) :
    (registerCounter om c).Counter.contains x = true := by
  unfold registerCounter
  split <;> simp_all

lemma registerCounter_gauge_mono (om : OtelMeters) (c : Counter) (x : String)
    (h : om.Gauge.contains x = true) :
    (registerCounter om c).Gauge.contains x = true := by
  unfold registerCounter
  split <;> simp_all

lemma registerCounter_histogram_mono (om : OtelMeters) (c : Counter) (x : String)
    (h : om.Histogram.contains x = true) :
    (registerCounter om c).Histogram.contains x = true := by
  unfold registerCounter
  split <;> simp_all

lemma foldl_register_counter_mono :
    ∀ (l : List Counter) (om : OtelMeters) (x : String),
      om.Counter.contains x = true →
      (l.foldl registerCounter om).Counter.contains x = true := by
  intro l
  induction l with
  | nil => intro om x h; exact h
  | cons c rest ih =>
      intro om x h
      exact ih _ _ (registerCounter_counter_mono om c x h)

lemma foldl_register_gauge_mono :
    ∀ (l : List Counter) (om : OtelMeters) (x : String),
      om.Gauge.contains x = true →
      (l.foldl registerCounter om).Gauge.contains x = true := by
  intro l
  induction l with
  | nil => intro om x h; exact h
  | cons c rest ih =>
      intro om x h
      exact ih _ _ (registerCounter_gauge_mono om c x h)

lemma foldl_register_histogram_mono :
    ∀ (l : List Counter) (om : OtelMeters) (x : String),
      om.Histogram.contains x = true →
      (l.foldl registerCounter om).Histogram.contains x = true := by
  intro l
  induction l with
  | nil => intro om x h; exact h
  | cons c rest ih =>
      intro om x h
      exact ih _ _ (registerCounter_histogram_mono om c x h)

lemma foldl_register_registered :
    ∀ (l : List Counter) (om : OtelMeters) (c : Counter), c ∈ l →
      (c.PromType = "counter" ∨ c.PromType = "gauge" ∨ c.PromType = "histogram") →
      instrumentRegistered (l.foldl registerCounter om) c = true := by
  intro l
  induction l with
  | nil => intro om c hc _; cases hc
  | cons c' rest ih =>
      intro om c hc hk
      rw [List.foldl_cons]
      rcases List.mem_cons.mp hc with h | h
      · subst h
        rcases hk with h | h | h
        · simp only [instrumentRegistered, h]
          exact foldl_register_counter_mono _ _ _ (by simp [registerCounter, h])
        · simp only [instrumentRegistered, h]
          exact foldl_register_gauge_mono _ _ _ (by simp [registerCounter, h])
        · simp only [instrumentRegistered, h]
          exact foldl_register_histogram_mono _ _ _ (by simp [registerCounter, h])
      · exact ih _ c h hk

lemma makeOtelMeters_registered (counters : List Counter) (c : Counter)
    (hc : c ∈ counters)
    (hk : c.PromType = "counter" ∨ c.PromType = "gauge" ∨ c.PromType = "histogram") :
    instrumentRegistered (makeOtelMeters counters) c = true :=
  foldl_register_registered counters ⟨[], [], []⟩ c hc hk

lemma observeGroup_err_of_empty (om : OtelMeters)
    (mkAttrs : Metric → List (String × String)) :
    ∀ (g : MetricsByCounter) (c : Counter), (c, ([] : List Metric)) ∈ g →
      ∃ e, observeGroupMetrics om mkAttrs g = .error e := by
  intro g
  induction g with
  | nil => intro c h; cases h
  | cons entry rest ih =>
      intro c h
      rcases entry with ⟨c', ms'⟩
      cases ms' with
      | nil => exact ⟨_, rfl⟩
      | cons m0 mtail =>
          have h' : (c, ([] : List Metric)) ∈ rest := by
            rcases List.mem_cons.mp h with h | h
            · cases h
            · exact h
          rcases hE : observeEntryMetrics om c' mkAttrs [] (m0 :: mtail) with e | outs
          · exact ⟨e, by simp [observeGroupMetrics, hE]⟩
          · obtain ⟨e2, h2⟩ := ih c h'
            exact ⟨e2, by simp [observeGroupMetrics, hE, h2]⟩

lemma stepStage_some (acc : AccState) (st : CycleState) (e : String)
    (k : CycleState → RunResult) :
    stepStage acc (st, some e) k = ⟨"", some e, acc, st.emitted⟩ := rfl

lemma stepStage_none (acc : AccState) (st : CycleState) (k : CycleState → RunResult) :
    stepStage acc (st, none) k = k st := rfl

lemma groupStage_collerr (tag : GroupTag) (e : String) (otel : Bool)
    (render : MetricsByCounter → Except String String) (errText : String)
    (st : CycleState) :
    groupStage tag (some (.error e)) otel render errText st = (st, some (errText ++ e)) := rfl

lemma groupStage_noerr (tag : GroupTag) (collect : Option (Except String MetricsByCounter))
    (otel : Bool) (render : MetricsByCounter → Except String String) (errText : String)
    (st : CycleState) (h : ¬ isCollErr collect) :
    groupStage tag collect otel render errText st
      = (⟨st.formatted ++ sectionText collect render,
          st.emitted ++ sectionEmit tag collect otel⟩, none) := by
  obtain ⟨f0, em0⟩ := st
  match collect with
  | none => simp [groupStage, sectionText, sectionEmit, String.append_empty]
  | some (.error e) => exact absurd ⟨e, rfl⟩ h
  | some (.ok metrics) =>
      by_cases hlen : 0 < metrics.length
      · rcases hr : render metrics with e | txt
        · cases otel <;>
            simp [groupStage, sectionText, sectionEmit, hlen, hr, String.append_empty]
        · cases otel <;>
            simp [groupStage, sectionText, sectionEmit, hlen, hr, String.append_empty]
      · cases otel <;>
          simp [groupStage, sectionText, sectionEmit, hlen, String.append_empty]

lemma runRest_noerr (env : CycleEnv) (acc : AccState) (st : CycleState)
    (h1 : ¬ isCollErr env.nvswitch) (h2 : ¬ isCollErr env.nvlink)
    (h3 : ¬ isCollErr env.cpu) (h4 : ¬ isCollErr env.core) :
    runRest env acc st =
      ⟨st.formatted ++ sectionText env.nvswitch env.renderSwitch
          ++ sectionText env.nvlink env.renderLink
          ++ sectionText env.cpu env.renderCpu
          ++ sectionText env.core env.renderCore,
        none, acc,
        st.emitted ++ sectionEmit .nvswitch env.nvswitch env.otelEnabled
          ++ sectionEmit .nvlink env.nvlink env.otelEnabled
          ++ sectionEmit .cpu env.cpu env.otelEnabled
          ++ sectionEmit .cpucore env.core env.otelEnabled⟩ := by
  rw [runRest, groupStage_noerr _ _ _ _ _ _ h1, stepStage_none,
    groupStage_noerr _ _ _ _ _ _ h2, stepStage_none,
    groupStage_noerr _ _ _ _ _ _ h3, stepStage_none,
    groupStage_noerr _ _ _ _ _ _ h4, stepStage_none]

lemma runRest_collerr (env : CycleEnv) (acc : AccState) (st : CycleState)
    (h : isCollErr env.nvswitch ∨ isCollErr env.nvlink ∨ isCollErr env.cpu
        ∨ isCollErr env.core) :
    (runRest env acc st).output = "" ∧ (runRest env acc st).err.isSome := by
  by_cases h1 : isCollErr env.nvswitch
  · obtain ⟨e, he⟩ := h1
    rw [runRest, he, groupStage_collerr, stepStage_some]
    exact ⟨rfl, rfl⟩
  · by_cases h2 : isCollErr env.nvlink
    · obtain ⟨e, he⟩ := h2
      rw [runRest, groupStage_noerr _ _ _ _ _ _ h1, stepStage_none, he,
        groupStage_collerr, stepStage_some]
      exact ⟨rfl, rfl⟩
    · by_cases h3 : isCollErr env.cpu
      · obtain ⟨e, he⟩ := h3
        rw [runRest, groupStage_noerr _ _ _ _ _ _ h1, stepStage_none,
          groupStage_noerr _ _ _ _ _ _ h2, stepStage_none, he,
          groupStage_collerr, stepStage_some]
        exact ⟨rfl, rfl⟩
      · by_cases h4 : isCollErr env.core
        · obtain ⟨e, he⟩ := h4
          rw [runRest, groupStage_noerr _ _ _ _ _ _ h1, stepStage_none,
            groupStage_noerr _ _ _ _ _ _ h2, stepStage_none,
            groupStage_noerr _ _ _ _ _ _ h3, stepStage_none, he,
            groupStage_collerr, stepStage_some]
          exact ⟨rfl, rfl⟩
        · rcases h with h | h | h | h
          · exact absurd h h1
          · exact absurd h h2
          · exact absurd h h3
          · exact absurd h h4

lemma runRest_emitted (env : CycleEnv) (acc : AccState) (st : CycleState) :
    ∃ l, (runRest env acc st).emitted = st.emitted ++ l := by
  by_cases h1 : isCollErr env.nvswitch
  · obtain ⟨e, he⟩ := h1
    rw [runRest, he, groupStage_collerr, stepStage_some]
    exact ⟨[], (List.append_nil _).symm⟩
  · by_cases h2 : isCollErr env.nvlink
    · obtain ⟨e, he⟩ := h2
      rw [runRest, groupStage_noerr _ _ _ _ _ _ h1, stepStage_none, he,
        groupStage_collerr, stepStage_some]
      exact ⟨_, rfl⟩
    · by_cases h3 : isCollErr env.cpu
      · obtain ⟨e, he⟩ := h3
        rw [runRest, groupStage_noerr _ _ _ _ _ _ h1, stepStage_none,
          groupStage_noerr _ _ _ _ _ _ h2, stepStage_none, he,
          groupStage_collerr, stepStage_some]
        exact ⟨_, List.append_assoc _ _ _⟩
      · by_cases h4 : isCollErr env.core
        · obtain ⟨e, he⟩ := h4
          rw [runRest, groupStage_noerr _ _ _ _ _ _ h1, stepStage_none,
            groupStage_noerr _ _ _ _ _ _ h2, stepStage_none,
            groupStage_noerr _ _ _ _ _ _ h3, stepStage_none, he,
            groupStage_collerr, stepStage_some]
          exact ⟨_, by rw [List.append_assoc, List.append_assoc]⟩
        · rw [runRest_noerr env acc st h1 h2 h3 h4]
          exact ⟨_, by rw [List.append_assoc, List.append_assoc, List.append_assoc]⟩

lemma gpuStage_ok_not_collErr (env : CycleEnv) (acc acc' : AccState) (st : CycleState)
    (h : gpuStage env acc = .ok acc' st) : ¬ isCollErr env.gpu := by
  rintro ⟨e, he⟩
  rw [gpuStage, he] at h
  cases h

lemma runCycle_gpu_fatal (env : CycleEnv) (acc : AccState) (e : String)
    (acc2 : AccState) (em : List (GroupTag × MetricsByCounter))
    (h : gpuStage env acc = .fatal e acc2 em) :
    runCycle env acc = ⟨"", some e, acc2, em⟩ := by
  rw [runCycle, h]

lemma runCycle_gpu_ok (env : CycleEnv) (acc acc' : AccState) (st : CycleState)
    (h : gpuStage env acc = .ok acc' st) : runCycle env acc = runRest env acc' st := by
  rw [runCycle, h]

lemma gpuStage_render_err (env : CycleEnv) (acc : AccState) (g0 g : MetricsByCounter)
    (e : String) (h1 : env.gpu = some (.ok g0))
    (h2 : applyTransforms env.transforms g0 = .ok g)
    (h3 : env.renderGpu (runExtension acc g).2 = .error e) :
    gpuStage env acc = .fatal ("failed to format metrics; err: " ++ e)
      (runExtension acc g).1 (if env.otelEnabled then [(GroupTag.gpu, g)] else []) := by
  simp only [gpuStage, h1, h2, h3]

lemma accGetF_accAddF_self (acc : AccStateF) (fp : String) (v : F64) :
    accGetF (accAddF acc fp v) fp = f64Add (accGetF acc fp) v := by
  induction acc with
  | nil => simp [accAddF, accGetF]
  | cons e rest ih =>
      by_cases h : e.1 = fp
      · simp [accAddF, accGetF, h]
      · simp [accAddF, accGetF, h, ih]

lemma accGetF_accAddF_ne (acc : AccStateF) (fp fp' : String) (v : F64)
    (h : fp' ≠ fp) : accGetF (accAddF acc fp v) fp' = accGetF acc fp' := by
  induction acc with
  | nil => simp [accAddF, accGetF, Ne.symm h]
  | cons e rest ih =>
      by_cases he : e.1 = fp
      · have hec : e.1 ≠ fp' := by rw [he]; exact Ne.symm h
        simp [accAddF, accGetF, he, Ne.symm h, hec]
      · by_cases he' : e.1 = fp'
        · simp [accAddF, accGetF, he, he', h]
        · simp [accAddF, accGetF, he, he', ih]

lemma accumulateValuesF_skip (fp : String) :
    ∀ (ms : List Metric) (acc : AccStateF),
      (∀ m' ∈ ms, metricFingerprint m' ≠ fp) →
      accGetF (accumulateValuesF acc ms) fp = accGetF acc fp := by
  intro ms
  induction ms with
  | nil => intro acc _; rfl
  | cons m rest ih =>
      intro acc h
      have hm := h m (List.mem_cons_self m rest)
      have hr := fun m' hm' => h m' (List.mem_cons_of_mem m hm')
      rcases hp : f64OfString m.Value with _ | v
      · simp only [accumulateValuesF, hp]
        exact ih acc hr
      · simp only [accumulateValuesF, hp]
        rw [ih _ hr, accGetF_accAddF_ne _ _ _ _ (Ne.symm hm)]

lemma accumulateValuesF_single (m : Metric) (v : F64)
    (hv : f64OfString m.Value = some v) :
    ∀ (pre post : List Metric) (acc : AccStateF),
      (∀ m' ∈ pre, metricFingerprint m' ≠ metricFingerprint m) →
      (∀ m' ∈ post, metricFingerprint m' ≠ metricFingerprint m) →
      accGetF (accumulateValuesF acc (pre ++ m :: post)) (metricFingerprint m)
        = f64Add (accGetF acc (metricFingerprint m)) v := by
  intro pre
  induction pre with
  | nil =>
      intro post acc _ h3
      simp only [List.nil_append, accumulateValuesF, hv]
      rw [accumulateValuesF_skip _ _ _ h3, accGetF_accAddF_self]
  | cons m' rest ih =>
      intro post acc h2 h3
      have hm' := h2 m' (List.mem_cons_self m' rest)
      have hr := fun m'' hm'' => h2 m'' (List.mem_cons_of_mem m' hm'')
      rcases hp : f64OfString m'.Value with _ | v'
      · simp only [List.cons_append, accumulateValuesF, hp]
        exact ih post acc hr h3
      · simp only [List.cons_append, accumulateValuesF, hp]
        have hstep := ih post (accAddF acc (metricFingerprint m') v') hr h3
        rw [accGetF_accAddF_ne _ _ _ _ (Ne.symm hm')] at hstep
        exact hstep

lemma foldl_accF_skip (fp : String) :
    ∀ (es : List (Counter × List Metric)) (acc : AccStateF),
      (∀ e ∈ es, ∀ m' ∈ e.2, metricFingerprint m' ≠ fp) →
      accGetF (es.foldl (fun a e => accumulateValuesF a e.2) acc) fp = accGetF acc fp := by
  intro es
  induction es with
  | nil => intro acc _; rfl
  | cons e rest ih =>
      intro acc h
      rw [List.foldl_cons, ih _ (fun e' he' => h e' (List.mem_cons_of_mem e he')),
        accumulateValuesF_skip _ _ _ (h e (List.mem_cons_self e rest))]

lemma runExtensionAccF_cycle (c : Counter) (pre post : List Metric) (m : Metric)
    (v : F64) (hv : f64OfString m.Value = some v)
    (gpre gpost : List (Counter × List Metric))
    (h1 : ∀ e ∈ gpre, ∀ m' ∈ e.2, metricFingerprint m' ≠ metricFingerprint m)
    (h2 : ∀ m' ∈ pre, metricFingerprint m' ≠ metricFingerprint m)
    (h3 : ∀ m' ∈ post, metricFingerprint m' ≠ metricFingerprint m)
    (h4 : ∀ e ∈ gpost, ∀ m' ∈ e.2, metricFingerprint m' ≠ metricFingerprint m)
    (acc : AccStateF) :
    accGetF (runExtensionAccF acc (gpre ++ (c, pre ++ m :: post) :: gpost))
        (metricFingerprint m)
      = f64Add (accGetF acc (metricFingerprint m)) v := by
  rw [runExtensionAccF, List.foldl_append, List.foldl_cons,
    foldl_accF_skip _ _ _ h4, accumulateValuesF_single m v hv _ _ _ h2 h3,
    foldl_accF_skip _ _ _ h1]

lemma iterExtensionAccF_sum (c : Counter) (pre post : List Metric) (m : Metric)
    (v : F64) (hv : f64OfString m.Value = some v)
    (gpre gpost : List (Counter × List Metric))
    (h1 : ∀ e ∈ gpre, ∀ m' ∈ e.2, metricFingerprint m' ≠ metricFingerprint m)
    (h2 : ∀ m' ∈ pre, metricFingerprint m' ≠ metricFingerprint m)
    (h3 : ∀ m' ∈ post, metricFingerprint m' ≠ metricFingerprint m)
    (h4 : ∀ e ∈ gpost, ∀ m' ∈ e.2, metricFingerprint m' ≠ metricFingerprint m)
    (acc0 : AccStateF) (hacc : accGetF acc0 (metricFingerprint m) = ⟨0, 0⟩) :
    ∀ k : Nat,
      accGetF (iterExtensionAccF (gpre ++ (c, pre ++ m :: post) :: gpost) acc0 k)
          (metricFingerprint m)
        = f64SumRepeat v k := by
  intro k
  induction k with
  | zero => exact hacc
  | succ k ih =>
      rw [iterExtensionAccF, runExtensionAccF_cycle c pre post m v hv gpre gpost
        h1 h2 h3 h4, ih]
      rfl

lemma sameVal_refl (a : F64) : F64.sameVal a a = true := by
  simp [F64.sameVal]

lemma f64SumRepeat_int (i : Int) :
    ∀ k : Nat, i.natAbs * k < 2 ^ 53 →
      f64SumRepeat ⟨i, 0⟩ k = ⟨(k : Int) * i, 0⟩ := by
  intro k
  induction k with
  | zero => intro _; simp [f64SumRepeat]
  | succ k ih =>
      intro hb
      have hb' : i.natAbs * k < 2 ^ 53 :=
        lt_of_le_of_lt (Nat.mul_le_mul_left _ (Nat.le_succ k)) hb
      rw [f64SumRepeat, ih hb']
      have hM : (k : Int) * i + i = ((k + 1 : Nat) : Int) * i := by push_cast; ring
      have habs : (((k + 1 : Nat) : Int) * i).natAbs < 2 ^ 53 := by
        rw [Int.natAbs_mul]
        simp only [Int.natAbs_ofNat]
        rw [Nat.mul_comm]
        exact hb
      simp only [f64Add, min_self, sub_self, Int.toNat_zero, pow_zero, mul_one, hM]
      rw [f64Round, if_pos habs]

lemma f64OfRat_int (i : Int) (h : i.natAbs < 2 ^ 53) :
    f64OfRat ((i : ℚ)) = ⟨i, 0⟩ := by
  by_cases hi : i = 0
  · subst hi
    simp [f64OfRat]
  · simp [f64OfRat, Rat.num_intCast, Rat.den_intCast, hi, h]
    intro hcon
    omega

lemma accumulate_snd_runningTotals (nc : Counter) :
    ∀ (ms : List Metric) (acc : AccState),
      (accumulateCounterMetrics nc acc ms).2
        = (runningTotals acc ms).map
            (fun p => { p.1 with Counter := nc, Value := formatValue p.2 }) := by
  intro ms
  induction ms with
  | nil => intro acc; simp [accumulateCounterMetrics, runningTotals]
  | cons m rest ih =>
      intro acc
      rcases hp : parseValue m.Value with _ | v
      · simp only [accumulateCounterMetrics, runningTotals, hp]
        exact ih acc
      · simp only [accumulateCounterMetrics, runningTotals, hp, List.map_cons]
        rw [ih]

lemma gpuStage_render_ok (env : CycleEnv) (acc : AccState) (g0 g : MetricsByCounter)
    (t : String) (h1 : env.gpu = some (.ok g0))
    (h2 : applyTransforms env.transforms g0 = .ok g)
    (h3 : env.renderGpu (runExtension acc g).2 = .ok t) :
    gpuStage env acc = .ok (runExtension acc g).1
      ⟨t, if env.otelEnabled then [(GroupTag.gpu, g)] else []⟩ := by
  simp only [gpuStage, h1, h2, h3]

end Helpers

example : parseValue "42" = some 42 := by decide
example : parseValue "-1.5" = some (Rat.neg (mkRat 3 2)) := by decide
example : parseValue "abc" = none := by decide
example : parseValue "" = none := by decide
example : parseValue "1.2.3" = none := by decide

/-- C1: if the `GetMetrics` call of any active entity-group collector
(GPU, switch, link, CPU, CPU-core) returns an error, the cycle's
overall result is the empty string together with an error, so no text
rendered for groups processed earlier in the cycle appears in the
result. -/
theorem run_collect_error_aborts_cycle (env : CycleEnv) (acc : AccState)
    (h : isCollErr env.gpu ∨ isCollErr env.nvswitch ∨ isCollErr env.nvlink
        ∨ isCollErr env.cpu ∨ isCollErr env.core) :
    (runCycle env acc).output = "" ∧ (runCycle env acc).err.isSome := by
  rcases hg : gpuStage env acc with ⟨e, acc', em⟩ | ⟨acc', st⟩
  · rw [runCycle, hg]
    exact ⟨rfl, rfl⟩
  · rw [runCycle, hg]
    apply runRest_collerr
    rcases h with h | h
    · exact absurd h (gpuStage_ok_not_collErr env acc acc' st hg)
    · exact h

/-- C1 witness: a concrete cycle whose switch collector errors yields
`("", error)` even though the GPU group already rendered text. -/
theorem run_collect_error_aborts_cycle_witness :
    (runCycle ⟨some (.ok gFix), some (.error "nvml fault"), none, none, none, [], false,
        fun _ => .ok "GPU TEXT", fun _ => .ok "", fun _ => .ok "", fun _ => .ok "",
        fun _ => .ok ""⟩ []).output = ""
    ∧ (runCycle ⟨some (.ok gFix), some (.error "nvml fault"), none, none, none, [], false,
        fun _ => .ok "GPU TEXT", fun _ => .ok "", fun _ => .ok "", fun _ => .ok "",
        fun _ => .ok ""⟩ []).err.isSome :=
  run_collect_error_aborts_cycle _ _ (Or.inr (Or.inl ⟨"nvml fault", rfl⟩))

/-- C2 counterexample: on a cycle failure with a full output channel the
scheduler performs a blocking send of `""` (`out <- ""` is
unconditional), so the output is not dropped and the scheduler does
block, contradicting the claim that the failure push is subject to the
same full-channel drop rule. -/
theorem scheduler_error_push_blocks_on_full :
    schedStep (Except.error "collect failed") ⟨1, ["pending"]⟩ = SchedPush.blocked ""
    ∧ schedStep (Except.error "collect failed") ⟨1, ["pending"]⟩ ≠ SchedPush.dropped := by
  exact ⟨rfl, by decide⟩

/-- C2 amended: the scheduler never blocks on the success path (it drops
and logs when `len(out) == cap(out)`), but on cycle failure it sends
`""` unconditionally: the send is delivered when the channel has room
and blocks when the channel is full. -/
theorem scheduler_push_policy (o e : String) (ch : Chan)
    (hinv : ch.buf.length ≤ ch.cap) :
    (∀ s, schedStep (Except.ok o) ch ≠ SchedPush.blocked s)
    ∧ (ch.buf.length = ch.cap → schedStep (Except.ok o) ch = SchedPush.dropped)
    ∧ (ch.buf.length ≠ ch.cap →
        schedStep (Except.ok o) ch = SchedPush.sent ⟨ch.cap, ch.buf ++ [o]⟩)
    ∧ (ch.buf.length < ch.cap →
        schedStep (Except.error e) ch = SchedPush.sent ⟨ch.cap, ch.buf ++ [""]⟩)
    ∧ (ch.buf.length = ch.cap → schedStep (Except.error e) ch = SchedPush.blocked "") := by
  refine ⟨?_, ?_, ?_, ?_, ?_⟩
  · intro s hblk
    rw [schedStep] at hblk
    by_cases hfull : ch.buf.length = ch.cap
    · rw [if_pos hfull] at hblk
      cases hblk
    · rw [if_neg hfull, chanSend,
        if_pos (lt_of_le_of_ne hinv hfull)] at hblk
      cases hblk
  · intro hfull
    rw [schedStep, if_pos hfull]
  · intro hfull
    rw [schedStep, if_neg hfull, chanSend, if_pos (lt_of_le_of_ne hinv hfull)]
  · intro hlt
    rw [schedStep, chanSend, if_pos hlt]
  · intro hfull
    rw [schedStep, chanSend, if_neg (by rw [hfull]; exact lt_irrefl _)]

/-- C2 amended witness: on a channel of capacity 1 holding one element,
a successful cycle's output is dropped and a failed cycle's `""` send
blocks. -/
theorem scheduler_push_policy_witness :
    ((∀ s, schedStep (Except.ok "o") ⟨1, ["x"]⟩ ≠ SchedPush.blocked s)
    ∧ ((["x"] : List String).length = 1 → schedStep (Except.ok "o") ⟨1, ["x"]⟩ = SchedPush.dropped)
    ∧ ((["x"] : List String).length ≠ 1 →
        schedStep (Except.ok "o") ⟨1, ["x"]⟩ = SchedPush.sent ⟨1, ["x"] ++ ["o"]⟩)
    ∧ ((["x"] : List String).length < 1 →
        schedStep (Except.error "e") ⟨1, ["x"]⟩ = SchedPush.sent ⟨1, ["x"] ++ [""]⟩)
    ∧ ((["x"] : List String).length = 1 → schedStep (Except.error "e") ⟨1, ["x"]⟩ = SchedPush.blocked "")) :=
  scheduler_push_policy "o" "e" ⟨1, ["x"]⟩ (by decide)

/-- C3: a GPU render failure is fatal to the cycle (empty output and an
error), while render failures of the switch, link, CPU and CPU-core
groups are recoverable: the cycle succeeds and its output is the
concatenation of the GPU text with each group's section, where a failed
or absent group contributes the empty section and the others contribute
their rendered text. -/
theorem render_failure_isolation (env : CycleEnv) (acc : AccState) :
    (∀ g0 g e, env.gpu = some (.ok g0) → applyTransforms env.transforms g0 = .ok g →
        env.renderGpu (runExtension acc g).2 = .error e →
        (runCycle env acc).output = "" ∧ (runCycle env acc).err.isSome)
    ∧ (∀ acc' t em, gpuStage env acc = .ok acc' ⟨t, em⟩ →
        ¬ isCollErr env.nvswitch → ¬ isCollErr env.nvlink → ¬ isCollErr env.cpu →
        ¬ isCollErr env.core →
        (runCycle env acc).err = none ∧
        (runCycle env acc).output
          = t ++ sectionText env.nvswitch env.renderSwitch
              ++ sectionText env.nvlink env.renderLink
              ++ sectionText env.cpu env.renderCpu
              ++ sectionText env.core env.renderCore) := by
  constructor
  · intro g0 g e h1 h2 h3
    rw [runCycle_gpu_fatal env acc _ _ _ (gpuStage_render_err env acc g0 g e h1 h2 h3)]
    exact ⟨rfl, rfl⟩
  · intro acc' t em hg hs hl hc hcc
    rw [runCycle_gpu_ok env acc acc' ⟨t, em⟩ hg, runRest_noerr env acc' _ hs hl hc hcc]
    exact ⟨rfl, rfl⟩

/-- C3 witness: a switch render failure in a concrete cycle leaves the
cycle successful with the GPU text retained and the switch section
omitted. -/
theorem render_failure_isolation_witness :
    (runCycle envRenderFail []).err = none
    ∧ (runCycle envRenderFail []).output
        = "GPU TEXT" ++ sectionText envRenderFail.nvswitch envRenderFail.renderSwitch
            ++ sectionText envRenderFail.nvlink envRenderFail.renderLink
            ++ sectionText envRenderFail.cpu envRenderFail.renderCpu
            ++ sectionText envRenderFail.core envRenderFail.renderCore :=
  (render_failure_isolation envRenderFail []).2 (runExtension [] gFix).1 "GPU TEXT" []
    (by rfl) (by simp [envRenderFail, isCollErr]) (by simp [envRenderFail, isCollErr])
    (by simp [envRenderFail, isCollErr]) (by simp [envRenderFail, isCollErr])

/-- C4 counterexample: the decimal value 0.1 accumulated over three
cycles of the extension loop yields the rounded binary64 sum
0.1+0.1+0.1 (= 0.30000000000000004), which is neither the exact real
3·v for v the double nearest 0.1, nor the double nearest 0.3 — so the
derived counter's value after the k-th cycle does not equal k·v. -/
theorem float_accumulation_not_exact :
    F64.sameVal (accGetF (iterExtensionAccF g01 [] 3) (metricFingerprint m01))
        (f64ScaleExact 3 (f64OfRat (mkRat 1 10))) = false
    ∧ F64.sameVal (accGetF (iterExtensionAccF g01 [] 3) (metricFingerprint m01))
        (f64OfRat (mkRat 3 10)) = false
    ∧ F64.sameVal (accGetF (iterExtensionAccF g01 [] 3) (metricFingerprint m01))
        (f64OfRat (mkRat 30000000000000004 (10 ^ 17))) = true := by
  exact ⟨by decide, by decide, by decide⟩

/-- C4 amended: for a GPU metric series with a fixed fingerprint that
is unique in the grouping and unseen in the accumulator, after `k`
consecutive cycles over the same grouping in which the series' value
parses to the double `v`, the accumulator entry (whose running value
the derived counter metric carries) is the k-fold binary64 sum of `v`;
when the series' value is an integer `i` with `k·|i| < 2^53` every
partial sum is exact and the entry equals the exact `k·i`, while for
values whose sums round (such as 0.1) the exact `k·v` identity fails. -/
theorem float_accumulator_kfold_sum
    (gpre gpost : List (Counter × List Metric)) (c : Counter)
    (pre post : List Metric) (m : Metric) (v : F64) (acc0 : AccStateF) (k : Nat)
    (g : MetricsByCounter) (hg : g = gpre ++ (c, pre ++ m :: post) :: gpost)
    (hv : f64OfString m.Value = some v)
    (hacc : accGetF acc0 (metricFingerprint m) = ⟨0, 0⟩)
    (h1 : ∀ e ∈ gpre, ∀ m' ∈ e.2, metricFingerprint m' ≠ metricFingerprint m)
    (h2 : ∀ m' ∈ pre, metricFingerprint m' ≠ metricFingerprint m)
    (h3 : ∀ m' ∈ post, metricFingerprint m' ≠ metricFingerprint m)
    (h4 : ∀ e ∈ gpost, ∀ m' ∈ e.2, metricFingerprint m' ≠ metricFingerprint m) :
    accGetF (iterExtensionAccF g acc0 k) (metricFingerprint m) = f64SumRepeat v k
    ∧ ∀ i : Int, v = ⟨i, 0⟩ → i.natAbs * k < 2 ^ 53 →
        accGetF (iterExtensionAccF g acc0 k) (metricFingerprint m)
            = ⟨(k : Int) * i, 0⟩
        ∧ F64.sameVal (accGetF (iterExtensionAccF g acc0 k) (metricFingerprint m))
            (f64ScaleExact (k : Int) ⟨i, 0⟩) = true := by
  subst hg
  have hiter := iterExtensionAccF_sum c pre post m v hv gpre gpost h1 h2 h3 h4 acc0 hacc k
  refine ⟨hiter, ?_⟩
  intro i hvi hbound
  rw [hiter, hvi, f64SumRepeat_int i k hbound]
  refine ⟨rfl, ?_⟩
  show F64.sameVal ⟨(k : Int) * i, 0⟩ ⟨(k : Int) * i, 0⟩ = true
  exact sameVal_refl _

/-- C4 amended witness: the integer value 42 collected in two
consecutive cycles gives the binary64 sum 84, exactly 2·42. -/
theorem float_accumulator_kfold_sum_witness :
    (accGetF (iterExtensionAccF gFix [] 2) (metricFingerprint mFix)
        = f64SumRepeat ⟨42, 0⟩ 2
    ∧ ∀ i : Int, (⟨42, 0⟩ : F64) = ⟨i, 0⟩ → i.natAbs * 2 < 2 ^ 53 →
        accGetF (iterExtensionAccF gFix [] 2) (metricFingerprint mFix)
            = ⟨((2 : Nat) : Int) * i, 0⟩
        ∧ F64.sameVal (accGetF (iterExtensionAccF gFix [] 2) (metricFingerprint mFix))
            (f64ScaleExact ((2 : Nat) : Int) ⟨i, 0⟩) = true) :=
  float_accumulator_kfold_sum [] [] cFix [] [] mFix ⟨42, 0⟩ [] 2 gFix
    rfl (by rfl) rfl (by simp) (by simp) (by simp) (by simp)

/-- C5 counterexample: in a grouping whose original keys include both
`FOO` (gauge) and `FOO_COUNTER` (counter, same FieldID and Help), the
derived key of `FOO` equals the original `FOO_COUNTER` key, and the
extension overwrites that original entry, so not every original Counter
key still maps to its original Metric list. -/
theorem counter_extension_collision_counterexample :
    alistGet gColl cColl = some []
    ∧ derivedCounter cFix = cColl
    ∧ alistGet (runExtension [] gColl).2 cColl ≠ some [] := by
  refine ⟨by decide, by decide, by decide⟩

/-- C5 amended: provided no derived key collides with an original key
and distinct originals have distinct derived keys, the extension keeps
every original entry unmodified and adds, for each original Counter, a
derived Counter (FieldName suffixed with `_COUNTER`, PromType
`counter`) whose metric list consists of exactly the original entry's
parseable metrics, each identical to its original except that it is
bound to the derived Counter and its `Value` is the accumulated total:
the accumulator entry for the metric's fingerprint right after that
metric's value is added (`runningTotals`). -/
theorem counter_extension_grouping_shape (acc : AccState) (g : MetricsByCounter)
    (hnd : (alistKeys g).Nodup)
    (hcol : ∀ c1 ∈ alistKeys g, ∀ c2 ∈ alistKeys g, derivedCounter c1 ≠ c2)
    (hinj : ∀ c1 ∈ alistKeys g, ∀ c2 ∈ alistKeys g,
        derivedCounter c1 = derivedCounter c2 → c1 = c2) :
    (∀ c ∈ alistKeys g, alistGet (runExtension acc g).2 c = alistGet g c)
    ∧ ∀ c ms s t, g = s ++ (c, ms) :: t →
        (derivedCounter c).FieldName = c.FieldName ++ "_COUNTER"
        ∧ (derivedCounter c).PromType = "counter"
        ∧ alistGet (runExtension acc g).2 (derivedCounter c)
            = some ((runningTotals (extendAcc acc s) ms).map
                (fun p => { p.1 with
                  Counter := derivedCounter c
                  Value := formatValue p.2 })) := by
  constructor
  · intro c hc
    rw [runExtension]
    exact foldl_ext_get_preserve c g (acc, g) (fun e he =>
      hcol e.1 (List.mem_map_of_mem Prod.fst he) c hc)
  · intro c ms s t hst
    refine ⟨rfl, rfl, ?_⟩
    have hmem : (c, ms) ∈ g := by
      rw [hst]
      exact List.mem_append_right s (List.mem_cons_self _ t)
    have hc1 : c ∈ alistKeys g := by
      have := List.mem_map_of_mem Prod.fst hmem
      exact this
    have hnotin : c ∉ t.map Prod.fst := by
      rw [hst, alistKeys, List.map_append, List.map_cons] at hnd
      have := (List.nodup_append.mp hnd).2.1
      exact (List.nodup_cons.mp this).1
    have hpost : ∀ e ∈ t, derivedCounter e.1 ≠ derivedCounter c := by
      intro e he heq
      have he1 : e.1 ∈ alistKeys g := by
        rw [hst]
        exact List.mem_map_of_mem Prod.fst
          (List.mem_append_right s (List.mem_cons_of_mem _ he))
      have hec : e.1 = c := hinj e.1 he1 c hc1 heq
      exact hnotin (hec ▸ List.mem_map_of_mem Prod.fst he)
    have hget : alistGet (runExtension acc g).2 (derivedCounter c)
        = some ((accumulateCounterMetrics (derivedCounter c) (extendAcc acc s) ms).2) := by
      rw [runExtension]
      conv_lhs => rw [hst]
      exact foldl_ext_get_mid c ms s t (acc, s ++ (c, ms) :: t) hpost
    rw [hget, accumulate_snd_runningTotals]

/-- C5 amended witness: the collision-free one-entry grouping keeps its
original entry and gains the derived `FOO_COUNTER` entry, whose metric
carries the accumulated total of `mFix`. -/
theorem counter_extension_grouping_shape_witness :
    (∀ c ∈ alistKeys gFix, alistGet (runExtension [] gFix).2 c = alistGet gFix c)
    ∧ ∀ c ms s t, gFix = s ++ (c, ms) :: t →
        (derivedCounter c).FieldName = c.FieldName ++ "_COUNTER"
        ∧ (derivedCounter c).PromType = "counter"
        ∧ alistGet (runExtension [] gFix).2 (derivedCounter c)
            = some ((runningTotals (extendAcc [] s) ms).map
                (fun p => { p.1 with
                  Counter := derivedCounter c
                  Value := formatValue p.2 })) :=
  counter_extension_grouping_shape [] gFix (by decide) (by decide) (by decide)

/-- C6: a GPU metric whose `Value` fails to parse is skipped and only
it: the accumulator step behaves as if the metric were absent (no
derived entry, no accumulator change), the original gauge entry is
retained in the output grouping, and the cycle still succeeds. -/
theorem parse_failure_skips_only_that_metric
    (nc : Counter) (m : Metric) (hp : parseValue m.Value = none) :
    (∀ (pre post : List Metric) (acc : AccState),
        accumulateCounterMetrics nc acc (pre ++ m :: post)
          = accumulateCounterMetrics nc acc (pre ++ post))
    ∧ (∀ (acc : AccState) (g : MetricsByCounter) (c : Counter) (ms : List Metric),
        (c, ms) ∈ g → m ∈ ms → (alistKeys g).Nodup →
        (∀ c1 ∈ alistKeys g, ∀ c2 ∈ alistKeys g, derivedCounter c1 ≠ c2) →
        ∃ ms', alistGet (runExtension acc g).2 c = some ms' ∧ m ∈ ms')
    ∧ (∀ (env : CycleEnv) (acc : AccState) (g0 g : MetricsByCounter) (t : String),
        env.gpu = some (.ok g0) → applyTransforms env.transforms g0 = .ok g →
        (∃ e ∈ g, m ∈ e.2) →
        env.renderGpu (runExtension acc g).2 = .ok t →
        ¬ isCollErr env.nvswitch → ¬ isCollErr env.nvlink → ¬ isCollErr env.cpu →
        ¬ isCollErr env.core → (runCycle env acc).err = none) := by
  refine ⟨accumulate_skip nc m hp, ?_, ?_⟩
  · intro acc g c ms hmem hm hnd hcol
    have hpres : alistGet (runExtension acc g).2 c = alistGet g c := by
      rw [runExtension]
      exact foldl_ext_get_preserve c g (acc, g) (fun e he =>
        hcol e.1 (List.mem_map_of_mem Prod.fst he) c (List.mem_map_of_mem Prod.fst hmem))
    exact ⟨ms, by rw [hpres, alistGet_of_mem_nodup g c ms hmem hnd], hm⟩
  · intro env acc g0 g t h1 h2 _ h3 hs hl hc hcc
    rw [runCycle_gpu_ok env acc _ _ (gpuStage_render_ok env acc g0 g t h1 h2 h3),
      runRest_noerr env _ _ hs hl hc hcc]

/-- C6 witness: the concrete unparseable metric is skipped by the
accumulator step, retained in the grouping, and does not fail the
cycle. -/
theorem parse_failure_skips_only_that_metric_witness :
    (∀ (pre post : List Metric) (acc : AccState),
        accumulateCounterMetrics cColl acc (pre ++ mBad :: post)
          = accumulateCounterMetrics cColl acc (pre ++ post))
    ∧ (∀ (acc : AccState) (g : MetricsByCounter) (c : Counter) (ms : List Metric),
        (c, ms) ∈ g → mBad ∈ ms → (alistKeys g).Nodup →
        (∀ c1 ∈ alistKeys g, ∀ c2 ∈ alistKeys g, derivedCounter c1 ≠ c2) →
        ∃ ms', alistGet (runExtension acc g).2 c = some ms' ∧ mBad ∈ ms')
    ∧ (∀ (env : CycleEnv) (acc : AccState) (g0 g : MetricsByCounter) (t : String),
        env.gpu = some (.ok g0) → applyTransforms env.transforms g0 = .ok g →
        (∃ e ∈ g, mBad ∈ e.2) →
        env.renderGpu (runExtension acc g).2 = .ok t →
        ¬ isCollErr env.nvswitch → ¬ isCollErr env.nvlink → ¬ isCollErr env.cpu →
        ¬ isCollErr env.core → (runCycle env acc).err = none) :=
  parse_failure_skips_only_that_metric cColl mBad (by decide)

/-- C7: two Metrics agreeing on the Counter's FieldName, every entity
identifier, hostname, and whose Labels and Attributes maps are equal as
key/value sets (same pairs in a possibly different iteration order,
keys unique) have identical fingerprints. -/
theorem metricFingerprint_stable_under_reordering (m1 m2 : Metric)
    (hname : m1.Counter.FieldName = m2.Counter.FieldName)
    (hgpu : m1.GPU = m2.GPU) (huuid : m1.GPUUUID = m2.GPUUUID)
    (hdev : m1.GPUDevice = m2.GPUDevice) (hmodel : m1.GPUModelName = m2.GPUModelName)
    (hpci : m1.GPUPCIBusID = m2.GPUPCIBusID) (hu : m1.UUID = m2.UUID)
    (hmig : m1.MigProfile = m2.MigProfile) (hinst : m1.GPUInstanceID = m2.GPUInstanceID)
    (hhost : m1.Hostname = m2.Hostname)
    (hlab : m1.Labels.Perm m2.Labels) (hlabnd : (m1.Labels.map Prod.fst).Nodup)
    (hattr : m1.Attributes.Perm m2.Attributes)
    (hattrnd : (m1.Attributes.map Prod.fst).Nodup) :
    metricFingerprint m1 = metricFingerprint m2 := by
  rw [metricFingerprint, metricFingerprint, hname, hgpu, huuid, hdev, hmodel, hpci,
    hu, hmig, hinst, hhost, kvSection_perm m1.Labels m2.Labels hlab hlabnd,
    kvSection_perm m1.Attributes m2.Attributes hattr hattrnd]

/-- C7 witness: reordering the label and attribute maps of `mFix`
leaves the fingerprint unchanged. -/
theorem metricFingerprint_stable_under_reordering_witness :
    metricFingerprint { mFix with
        Labels := [("a", "1"), ("b", "2")], Attributes := [("x", "7"), ("y", "8")] }
      = metricFingerprint { mFix with
        Labels := [("b", "2"), ("a", "1")], Attributes := [("y", "8"), ("x", "7")] } :=
  metricFingerprint_stable_under_reordering _ _ rfl rfl rfl rfl rfl rfl rfl rfl rfl rfl
    (by decide) (by decide) (by decide) (by decide)

/-- C8: for a metric reaching `OtelObserve` whose Counter's PromType is
counter, gauge or histogram, a missing instrument under the lower-cased
field name or an unparseable `Value` makes emission panic; and when the
Counter is in the construction-time counter list and the `Value` parses,
the panic branches are unreachable. -/
theorem emitter_panic_semantics (counters : List Counter) (c : Counter) (mv : Metric)
    (attrs : List (String × String))
    (hk : c.PromType = "counter" ∨ c.PromType = "gauge" ∨ c.PromType = "histogram") :
    ((instrumentRegistered (makeOtelMeters counters) c = false
        ∨ parseValue mv.Value = none) →
      panics (OtelObserve (makeOtelMeters counters) c mv attrs) = true)
    ∧ (c ∈ counters → (∃ v, parseValue mv.Value = some v) →
      panics (OtelObserve (makeOtelMeters counters) c mv attrs) = false) := by
  constructor
  · intro h
    rcases hk with hk | hk | hk
    · by_cases hct : (makeOtelMeters counters).Counter.contains c.FieldName.toLower = true
      · rcases h with h | h
        · simp only [instrumentRegistered, hk] at h
          rw [h] at hct
          cases hct
        · have hmem := List.elem_iff.mp hct
          simp [OtelObserve, hk, hmem, h, panics]
      · have hmem : c.FieldName.toLower ∉ (makeOtelMeters counters).Counter :=
          fun hm => hct (List.elem_iff.mpr hm)
        simp [OtelObserve, hk, hmem, panics]
    · by_cases hct : (makeOtelMeters counters).Gauge.contains c.FieldName.toLower = true
      · rcases h with h | h
        · simp only [instrumentRegistered, hk] at h
          rw [h] at hct
          cases hct
        · have hmem := List.elem_iff.mp hct
          simp [OtelObserve, hk, hmem, h, panics]
      · have hmem : c.FieldName.toLower ∉ (makeOtelMeters counters).Gauge :=
          fun hm => hct (List.elem_iff.mpr hm)
        simp [OtelObserve, hk, hmem, panics]
    · by_cases hct : (makeOtelMeters counters).Histogram.contains c.FieldName.toLower = true
      · rcases h with h | h
        · simp only [instrumentRegistered, hk] at h
          rw [h] at hct
          cases hct
        · have hmem := List.elem_iff.mp hct
          simp [OtelObserve, hk, hmem, h, panics]
      · have hmem : c.FieldName.toLower ∉ (makeOtelMeters counters).Histogram :=
          fun hm => hct (List.elem_iff.mpr hm)
        simp [OtelObserve, hk, hmem, panics]
  · intro hc ⟨v, hv⟩
    have hreg := makeOtelMeters_registered counters c hc hk
    rcases hk with hk | hk | hk
    · simp only [instrumentRegistered, hk] at hreg
      have hmem := List.elem_iff.mp hreg
      simp [OtelObserve, hk, hmem, hv, panics]
    · simp only [instrumentRegistered, hk] at hreg
      have hmem := List.elem_iff.mp hreg
      simp [OtelObserve, hk, hmem, hv, panics]
    · simp only [instrumentRegistered, hk] at hreg
      have hmem := List.elem_iff.mp hreg
      simp [OtelObserve, hk, hmem, hv, panics]

/-- C8 witness: with the construction list `[cFix]` (a gauge), `mFix`
emits without panic, while an unregistered counter and an unparseable
value panic. -/
theorem emitter_panic_semantics_witness :
    ((instrumentRegistered (makeOtelMeters [cFix]) cFix = false
        ∨ parseValue mFix.Value = none) →
      panics (OtelObserve (makeOtelMeters [cFix]) cFix mFix []) = true)
    ∧ (cFix ∈ [cFix] → (∃ v, parseValue mFix.Value = some v) →
      panics (OtelObserve (makeOtelMeters [cFix]) cFix mFix []) = false) :=
  emitter_panic_semantics [cFix] cFix mFix [] (Or.inr (Or.inl (by decide)))

/-- C9: in a cycle with a metering backend configured, the GPU grouping
handed to the Meter Emitter is exactly the post-transform, pre-extension
grouping (the first entry of the cycle's emit trace), while every
entry's derived `_COUNTER` key is present in the extended grouping the
renderer receives; so derived series reach the exposition text but not
the push sink unless they were already collected. -/
theorem emitter_runs_before_extension (env : CycleEnv) (acc : AccState)
    (g0 g : MetricsByCounter)
    (h1 : env.gpu = some (.ok g0)) (h2 : applyTransforms env.transforms g0 = .ok g)
    (h3 : env.otelEnabled = true) :
    (∃ rest, (runCycle env acc).emitted = (GroupTag.gpu, g) :: rest)
    ∧ ∀ e ∈ g, (alistGet (runExtension acc g).2 (derivedCounter e.1)).isSome := by
  constructor
  · rcases hr : env.renderGpu (runExtension acc g).2 with e | t
    · rw [runCycle_gpu_fatal env acc _ _ _ (gpuStage_render_err env acc g0 g e h1 h2 hr)]
      rw [h3]
      exact ⟨[], rfl⟩
    · rw [runCycle_gpu_ok env acc _ _ (gpuStage_render_ok env acc g0 g t h1 h2 hr)]
      obtain ⟨l, hl⟩ := runRest_emitted env (runExtension acc g).1
        ⟨t, if env.otelEnabled then [(GroupTag.gpu, g)] else []⟩
      rw [hl, h3]
      exact ⟨l, rfl⟩
  · intro e he
    rw [runExtension]
    exact foldl_ext_derived_isSome e g (acc, g) he

/-- C9 witness: a concrete metering-enabled cycle has the pre-extension
grouping first in its emit trace and the derived key in the rendered
grouping. -/
theorem emitter_runs_before_extension_witness :
    (∃ rest, (runCycle ⟨some (.ok gFix), none, none, none, none, [], true,
        fun _ => .ok "GPU TEXT", fun _ => .ok "", fun _ => .ok "", fun _ => .ok "",
        fun _ => .ok ""⟩ []).emitted = (GroupTag.gpu, gFix) :: rest)
    ∧ ∀ e ∈ gFix, (alistGet (runExtension [] gFix).2 (derivedCounter e.1)).isSome :=
  emitter_runs_before_extension _ [] gFix gFix rfl rfl rfl

/-- C10: every per-group Meter Emitter function reads element 0 of each
Counter's metric list, so a grouping with a Counter key bound to an
empty list makes emission panic for each of the five group functions. -/
theorem emitter_empty_metric_list_panics (om : OtelMeters) (g : MetricsByCounter)
    (c : Counter) (h : (c, ([] : List Metric)) ∈ g) :
    (∃ e, OtelObserveGpuMetrics om g = .error e)
    ∧ (∃ e, OtelObserveSwitchMetrics om g = .error e)
    ∧ (∃ e, OtelObserveLinkMetrics om g = .error e)
    ∧ (∃ e, OtelObserveCpuMetrics om g = .error e)
    ∧ (∃ e, OtelObserveCpuCoreMetrics om g = .error e) :=
  ⟨observeGroup_err_of_empty om gpuMetricAttrs g c h,
   observeGroup_err_of_empty om switchMetricAttrs g c h,
   observeGroup_err_of_empty om linkMetricAttrs g c h,
   observeGroup_err_of_empty om cpuMetricAttrs g c h,
   observeGroup_err_of_empty om cpuCoreMetricAttrs g c h⟩

/-- C10 witness: the one-entry grouping with an empty metric list makes
all five group emitters panic. -/
theorem emitter_empty_metric_list_panics_witness :
    (∃ e, OtelObserveGpuMetrics ⟨[], [], []⟩ [(cFix, [])] = .error e)
    ∧ (∃ e, OtelObserveSwitchMetrics ⟨[], [], []⟩ [(cFix, [])] = .error e)
    ∧ (∃ e, OtelObserveLinkMetrics ⟨[], [], []⟩ [(cFix, [])] = .error e)
    ∧ (∃ e, OtelObserveCpuMetrics ⟨[], [], []⟩ [(cFix, [])] = .error e)
    ∧ (∃ e, OtelObserveCpuCoreMetrics ⟨[], [], []⟩ [(cFix, [])] = .error e) :=
  emitter_empty_metric_list_panics ⟨[], [], []⟩ [(cFix, [])] cFix (by decide)
